import Mathlib

/-!
Verification development for the AST-based patch engine in `thinker-ast.js`
(claude-thinking-toggle).  The source text is modelled as a list of
characters, the acorn AST as the inductive type `Js` (each node carries its
byte range), and every detection / patching / verification function of the
engine is translated into an executable Lean definition.  The parser itself
(the external `acorn` library) enters the theorems as an explicit
`parse : Chars → Option Js` oracle parameter, exactly as `main` consumes it.
-/

/-- Source text: a sequence of characters with byte offsets as indices. -/
abbrev Chars := List Char

/-- `sliceTxt t a b` is the substring of `t` from offset `a` (inclusive) to
`b` (exclusive) — the model of `code.substring(a, b)`. -/
def sliceTxt (t : Chars) (a b : Nat) : Chars := (t.take b).drop a

/-- Does `t` start with `p`? -/
def startsWith : Chars → Chars → Bool
  | _, [] => true
  | [], _ :: _ => false
  | c :: cs, d :: ds => c == d && startsWith cs ds

/-- Does `t` contain `sub` as a contiguous substring?  Model of
`String.prototype.includes`. -/
def containsSub (sub : Chars) : Chars → Bool
  | [] => startsWith [] sub
  | c :: cs => startsWith (c :: cs) sub || containsSub sub cs

/-- A byte-range replacement, the model of one `MagicString` edit:
replace `[s, e)` of the original text by `repl`.  `ms.remove` is the
special case `repl = []`. -/
structure Edit where
  s : Nat
  e : Nat
  repl : Chars
deriving DecidableEq

/-- Insert an edit into a list sorted by start offset. -/
def insEdit (x : Edit) : List Edit → List Edit
  | [] => [x]
  | y :: ys => if x.s ≤ y.s then x :: y :: ys else y :: insEdit x ys

/-- Sort edits by start offset (insertion sort). -/
def sortEdits : List Edit → List Edit
  | [] => []
  | x :: xs => insEdit x (sortEdits xs)

/-- For a start-sorted edit list: every edit lies after position `pos`,
has a well-ordered range, does not overlap its successor, and stays within
a text of length `len`.  `MagicString` raises on any violation. -/
def chainOk (len : Nat) : Nat → List Edit → Bool
  | pos, [] => pos ≤ len
  | pos, ed :: rest => pos ≤ ed.s && ed.s ≤ ed.e && chainOk len ed.e rest

/-- Apply a start-sorted, non-overlapping edit list: concatenate the
untouched spans of the original text with the replacement texts, in
order. -/
def spliceGo (t : Chars) : Nat → List Edit → Chars
  | pos, [] => t.drop pos
  | pos, ed :: rest => sliceTxt t pos ed.s ++ ed.repl ++ spliceGo t ed.e rest

/-- The model of `MagicString#toString` together with the exceptions that
`overwrite`/`remove` raise on overlapping or out-of-bounds ranges: sort
the collected edits, fail on overlap, otherwise splice. -/
def splice (t : Chars) (edits : List Edit) : Except Unit Chars :=
  let sorted := sortEdits edits
  if chainOk t.length 0 sorted then .ok (spliceGo t 0 sorted) else .error ()

/-- Where the untouched input byte at offset `p` lands in the spliced
output, for a start-sorted edit list processed from position `pos`. -/
def shiftFrom : Nat → List Edit → Nat → Nat
  | pos, [], p => p - pos
  | pos, ed :: rest, p =>
      if p < ed.s then p - pos
      else (ed.s - pos) + ed.repl.length + shiftFrom ed.e rest p

/-- Literal values of the parsed language (string, number, `null`,
boolean), as acorn stores them in `node.value`. -/
inductive LitVal where
  | str (s : String)
  | num (n : Int)
  | nullV
  | boolV (b : Bool)
deriving DecidableEq

/-- The acorn AST, restricted to the node kinds the engine inspects.
Every constructor carries the node's byte range `[s, e)`.  Node kinds the
engine never looks into are kept abstract as `otherNode`. -/
inductive Js where
  | ident (name : String) (s e : Nat)
  | lit (v : LitVal) (s e : Nat)
  | unary (op : String) (arg : Js) (s e : Nat)
  | logical (op : String) (lhs rhs : Js) (s e : Nat)
  | member (obj : Js) (prop : Js) (computed : Bool) (s e : Nat)
  | seqExpr (exprs : List Js) (s e : Nat)
  | call (callee : Js) (args : List Js) (s e : Nat)
  | objExpr (props : List Js) (s e : Nat)
  | property (key : Js) (value : Js) (s e : Nat)
  | objPattern (props : List Js) (s e : Nat)
  | funcExpr (params : List Js) (body : Js) (s e : Nat)
  | funcDecl (idName : Option String) (params : List Js) (body : Js) (s e : Nat)
  | ifStmt (test : Js) (conseq : Js) (alt : Option Js) (s e : Nat)
  | returnStmt (arg : Option Js) (s e : Nat)
  | switchCase (testE : Option Js) (consequent : List Js) (s e : Nat)
  | switchStmt (disc : Js) (cases : List Js) (s e : Nat)
  | block (body : List Js) (s e : Nat)
  | exprStmt (expr : Js) (s e : Nat)
  | program (body : List Js) (s e : Nat)
  | otherNode (kind : String) (children : List Js) (s e : Nat)

/-- Start offset of a node (`node.start`). -/
def Js.startN : Js → Nat
  | .ident _ s _ => s
  | .lit _ s _ => s
  | .unary _ _ s _ => s
  | .logical _ _ _ s _ => s
  | .member _ _ _ s _ => s
  | .seqExpr _ s _ => s
  | .call _ _ s _ => s
  | .objExpr _ s _ => s
  | .property _ _ s _ => s
  | .objPattern _ s _ => s
  | .funcExpr _ _ s _ => s
  | .funcDecl _ _ _ s _ => s
  | .ifStmt _ _ _ s _ => s
  | .returnStmt _ s _ => s
  | .switchCase _ _ s _ => s
  | .switchStmt _ _ s _ => s
  | .block _ s _ => s
  | .exprStmt _ s _ => s
  | .program _ s _ => s
  | .otherNode _ _ s _ => s

/-- End offset of a node (`node.end`). -/
def Js.endN : Js → Nat
  | .ident _ _ e => e
  | .lit _ _ e => e
  | .unary _ _ _ e => e
  | .logical _ _ _ _ e => e
  | .member _ _ _ _ e => e
  | .seqExpr _ _ e => e
  | .call _ _ _ e => e
  | .objExpr _ _ e => e
  | .property _ _ _ e => e
  | .objPattern _ _ e => e
  | .funcExpr _ _ _ e => e
  | .funcDecl _ _ _ _ e => e
  | .ifStmt _ _ _ _ e => e
  | .returnStmt _ _ e => e
  | .switchCase _ _ _ e => e
  | .switchStmt _ _ _ e => e
  | .block _ _ e => e
  | .exprStmt _ _ e => e
  | .program _ _ e => e
  | .otherNode _ _ _ e => e

mutual

/-- Model of `acorn-walk`'s full traversal carrying the ancestor stack:
returns every node of the subtree paired with its root-to-node path
(the node itself included as the last entry, as `walk.ancestor` exposes
it).  Children are visited in document order, the node's own callback
firing after its children, as in `acorn-walk`. -/
def Js.walkAnc : Js → List Js → List (Js × List Js)
  | n@(.ident _ _ _), st => [(n, st ++ [n])]
  | n@(.lit _ _ _), st => [(n, st ++ [n])]
  | n@(.unary _ arg _ _), st => Js.walkAnc arg (st ++ [n]) ++ [(n, st ++ [n])]
  | n@(.logical _ l r _ _), st =>
      Js.walkAnc l (st ++ [n]) ++ Js.walkAnc r (st ++ [n]) ++ [(n, st ++ [n])]
  | n@(.member obj prop _ _ _), st =>
      Js.walkAnc obj (st ++ [n]) ++ Js.walkAnc prop (st ++ [n]) ++ [(n, st ++ [n])]
  | n@(.seqExpr exprs _ _), st => Js.walkAncList exprs (st ++ [n]) ++ [(n, st ++ [n])]
  | n@(.call callee args _ _), st =>
      Js.walkAnc callee (st ++ [n]) ++ Js.walkAncList args (st ++ [n]) ++ [(n, st ++ [n])]
  | n@(.objExpr props _ _), st => Js.walkAncList props (st ++ [n]) ++ [(n, st ++ [n])]
  | n@(.property k v _ _), st =>
      Js.walkAnc k (st ++ [n]) ++ Js.walkAnc v (st ++ [n]) ++ [(n, st ++ [n])]
  | n@(.objPattern props _ _), st => Js.walkAncList props (st ++ [n]) ++ [(n, st ++ [n])]
  | n@(.funcExpr params body _ _), st =>
      Js.walkAncList params (st ++ [n]) ++ Js.walkAnc body (st ++ [n]) ++ [(n, st ++ [n])]
  | n@(.funcDecl _ params body _ _), st =>
      Js.walkAncList params (st ++ [n]) ++ Js.walkAnc body (st ++ [n]) ++ [(n, st ++ [n])]
  | n@(.ifStmt t c a _ _), st =>
      Js.walkAnc t (st ++ [n]) ++ Js.walkAnc c (st ++ [n]) ++
        (match a with
         | some x => Js.walkAnc x (st ++ [n])
         | none => []) ++ [(n, st ++ [n])]
  | n@(.returnStmt a _ _), st =>
      (match a with
       | some x => Js.walkAnc x (st ++ [n])
       | none => []) ++ [(n, st ++ [n])]
  | n@(.switchCase t conseq _ _), st =>
      (match t with
       | some x => Js.walkAnc x (st ++ [n])
       | none => []) ++ Js.walkAncList conseq (st ++ [n]) ++ [(n, st ++ [n])]
  | n@(.switchStmt d cs _ _), st =>
      Js.walkAnc d (st ++ [n]) ++ Js.walkAncList cs (st ++ [n]) ++ [(n, st ++ [n])]
  | n@(.block body _ _), st => Js.walkAncList body (st ++ [n]) ++ [(n, st ++ [n])]
  | n@(.exprStmt x _ _), st => Js.walkAnc x (st ++ [n]) ++ [(n, st ++ [n])]
  | n@(.program body _ _), st => Js.walkAncList body (st ++ [n]) ++ [(n, st ++ [n])]
  | n@(.otherNode _ children _ _), st => Js.walkAncList children (st ++ [n]) ++ [(n, st ++ [n])]

/-- Traversal of a child list, in document order. -/
def Js.walkAncList : List Js → List Js → List (Js × List Js)
  | [], _ => []
  | c :: cs, st => Js.walkAnc c st ++ Js.walkAncList cs st

end

/-- Every node of the tree in traversal order (the model of `walk.simple`
collecting nodes of interest). -/
def allNodes (root : Js) : List Js := (Js.walkAnc root []).map Prod.fst

/-- `findStringLiteralsWithAncestors`: every string-literal node whose
value equals `value`, paired with its ancestor path. -/
def findStringLiteralsWithAncestors (root : Js) (value : String) : List (Js × List Js) :=
  (Js.walkAnc root []).filterMap fun p =>
    match p.1 with
    | .lit (.str sv) _ _ => if sv = value then some p else none
    | _ => none

/-- Name of an identifier node, `none` otherwise. -/
def identName : Js → Option String
  | .ident nm _ _ => some nm
  | _ => none

/-- Arguments of a call expression (`callExpr.arguments`), `[]` otherwise. -/
def argsOf : Js → List Js
  | .call _ args _ _ => args
  | _ => []

/-- Value of a `Property` node. -/
def propValueOf : Js → Option Js
  | .property _ v _ _ => some v
  | _ => none

/-- Unwrap a `SequenceExpression` callee `(0, a.createElement)` to its
last expression, as `isCreateElementCall` does. -/
def unwrapCallee (c : Js) : Js :=
  match c with
  | .seqExpr exprs _ _ => (exprs.getLast?).getD c
  | _ => c

/-- `isCreateElementCall`: is this call's (sequence-unwrapped) callee a
member access whose property is `createElement` (identifier or string
key)?  The nested `.default.createElement` re-check of the source is kept
even though its guard can only fire when the first check already did. -/
def isCreateElementCall (n : Js) : Bool :=
  match n with
  | .call callee _ _ _ =>
    match unwrapCallee callee with
    | .member obj prop _ _ _ =>
        (match prop with
         | .ident nm _ _ => nm == "createElement"
         | .lit (.str sv) _ _ => sv == "createElement"
         | _ => false)
        ||
        (match obj, prop with
         | .member _ innerProp _ _ _, .ident nm2 _ _ =>
             (match innerProp with
              | .ident inm _ _ => inm == "default"
              | _ => false) && nm2 == "createElement"
         | _, _ => false)
    | _ => false
  | _ => false

/-- `findObjectProperty`: look up a property of an object literal by
logical key name, identifier keys and string-literal keys alike,
independent of declaration order. -/
def findObjectProperty (props : List Js) (keyName : String) : Option Js :=
  props.find? fun prop =>
    match prop with
    | .property key _ _ _ =>
        (match key with
         | .ident nm _ _ => nm == keyName
         | .lit v _ _ => decide (v = .str keyName)
         | _ => false)
    | _ => false

/-- `findAncestorOfType`: nearest ancestor (excluding the node itself)
satisfying the predicate, walking from the node towards the root. -/
def findAncestorOfType (ancestors : List Js) (pred : Js → Bool) : Option Js :=
  (ancestors.dropLast).reverse.find? pred

/-- Is this node an `IfStatement`? -/
def isIfStmtB : Js → Bool
  | .ifStmt _ _ _ _ _ => true
  | _ => false

/-- `containingArgIndex`: index of the call argument whose byte range
contains `[ns, ne)`, `none` for `-1`. -/
def containingArgIndex (callExpr : Js) (ns ne : Nat) : Option Nat :=
  match callExpr with
  | .call _ args _ _ => args.findIdx? fun a => decide (a.startN ≤ ns) && decide (ne ≤ a.endN)
  | _ => none

/-- Descend through member accesses to the root object. -/
def rootObj : Js → Js
  | .member obj _ _ _ _ => rootObj obj
  | n => n

/-- `getReactVarFromCall`: the root identifier of the callee's member
chain, e.g. `lZ1` in `lZ1.default.createElement(...)`. -/
def getReactVarFromCall (callExpr : Js) : Option String :=
  match callExpr with
  | .call callee _ _ _ =>
    match unwrapCallee callee with
    | .member obj _ _ _ _ => identName (rootObj obj)
    | _ => none
  | _ => none

/-- Per-site failure labels of the detection engine. -/
inductive DetectError where
  | notFound
  | patternMismatch
  | ambiguous (count : Nat)
  | headerNotFound
deriving DecidableEq

/-- Did a detection succeed (`result.success` truthiness)? -/
def okB {α : Type} : Except DetectError α → Bool
  | .ok _ => true
  | .error _ => false

/-- `result.isPatched` truthiness: `false` on a failed detection, whose
object carries no `isPatched` field. -/
def patchedB {α : Type} (f : α → Bool) : Except DetectError α → Bool
  | .ok m => f m
  | .error _ => false

/-- The error of a failed detection, if any. -/
def errOf {α : Type} : Except DetectError α → Option DetectError
  | .ok _ => none
  | .error er => some er

/-- One structurally valid expanded-header candidate: the anchor literal,
its enclosing `createElement` call, and the extracted facts. -/
structure HeaderCand where
  literal : Js
  callExpr : Js
  propsNode : Js
  reactVar : Option String
  textElement : Option String
  isPatched : Bool

/-- Successful result of `findExpandedHeader`. -/
structure HeaderMatch where
  literal : Js
  callExpr : Js
  propsNode : Js
  reactVar : Option String
  textElement : Option String
  propsStart : Nat
  propsEnd : Nat
  isPatched : Bool

/-- Build the expanded-header candidate for one anchor literal: walk up
to the first `createElement` call ancestor, require the literal in a
child argument position (index ≥ 2), extract props / type / React
variable, and derive `isPatched` from the presence of a `color` prop. -/
def headerCandOf (p : Js × List Js) : Option HeaderCand :=
  match (p.2.dropLast).reverse.find? isCreateElementCall with
  | none => none
  | some callExpr =>
    match containingArgIndex callExpr p.1.startN p.1.endN with
    | none => none
    | some argIndex =>
      if argIndex < 2 then none
      else
        match (argsOf callExpr).get? 1 with
        | none => none
        | some propsNode =>
          let textElement :=
            match (argsOf callExpr).get? 0 with
            | some (.ident nm _ _) => some nm
            | _ => none
          let isPatched :=
            match propsNode with
            | .objExpr props _ _ => (findObjectProperty props "color").isSome
            | _ => false
          some ⟨p.1, callExpr, propsNode, getReactVarFromCall callExpr, textElement, isPatched⟩

/-- All structurally valid expanded-header candidates of the tree. -/
def headerCands (ast : Js) : List HeaderCand :=
  (findStringLiteralsWithAncestors ast "∴ Thinking…").filterMap headerCandOf

/-- Success record from a header candidate. -/
def headerMatchOf (m : HeaderCand) : HeaderMatch :=
  ⟨m.literal, m.callExpr, m.propsNode, m.reactVar, m.textElement,
   m.propsNode.startN, m.propsNode.endN, m.isPatched⟩

/-- `findExpandedHeader`: locate the `"∴ Thinking…"` `createElement`
call.  NOT_FOUND without any anchor literal; PATTERN_MISMATCH when no
candidate is structurally valid; AMBIGUOUS whenever more than one
candidate exists. -/
def findExpandedHeader (ast : Js) : Except DetectError HeaderMatch :=
  let occs := findStringLiteralsWithAncestors ast "∴ Thinking…"
  if occs.length = 0 then .error .notFound
  else
    match headerCands ast with
    | [] => .error .patternMismatch
    | [m] => .ok (headerMatchOf m)
    | m1 :: m2 :: rest => .error (.ambiguous (m1 :: m2 :: rest).length)

/-- One collapsed-view candidate: the anchor literal, its nearest
enclosing `if`, the guard's byte range (unpatched candidates only) and
the extracted variable names. -/
structure CollapsedCand where
  literal : Js
  ifStmt : Js
  conditionStart : Option Nat
  conditionEnd : Option Nat
  transcriptVar : Option String
  verboseVar : Option String
  isPatched : Bool

/-- Successful result of `findCollapsedView` (the candidate minus the
literal, as the source returns it). -/
structure CollapsedMatch where
  ifStmt : Js
  conditionStart : Option Nat
  conditionEnd : Option Nat
  transcriptVar : Option String
  verboseVar : Option String
  isPatched : Bool

/-- Forget the literal of a collapsed-view candidate. -/
def CollapsedCand.toMatch (c : CollapsedCand) : CollapsedMatch :=
  ⟨c.ifStmt, c.conditionStart, c.conditionEnd, c.transcriptVar, c.verboseVar, c.isPatched⟩

/-- Build the collapsed-view candidate for one anchor literal: find the
nearest `IfStatement` ancestor; `if(!1)` is the patched form, `!(A||B)`
and `!A` are the unpatched forms, anything else is no candidate. -/
def collapsedCandOf (p : Js × List Js) : Option CollapsedCand :=
  match findAncestorOfType p.2 isIfStmtB with
  | none => none
  | some ifS =>
    match ifS with
    | .ifStmt test _ _ _ _ =>
      match test with
      | .unary "!" (.lit (.num 1) _ _) _ _ =>
          some ⟨p.1, ifS, none, none, none, none, true⟩
      | .unary "!" (.logical "||" l r _ _) ts te =>
          some ⟨p.1, ifS, some ts, some te, identName l, identName r, false⟩
      | .unary "!" (.ident nm _ _) ts te =>
          some ⟨p.1, ifS, some ts, some te, some nm, none, false⟩
      | _ => none
    | _ => none

/-- All collapsed-view candidates of the tree. -/
def collapsedCands (ast : Js) : List CollapsedCand :=
  (findStringLiteralsWithAncestors ast "∴ Thinking (").filterMap collapsedCandOf

/-- Disambiguation step of `findCollapsedView`: a single candidate is
returned as-is; with several, more than one unpatched candidate is
AMBIGUOUS (named by the unpatched count), otherwise the single unpatched
candidate — or, all being patched, the first — is selected. -/
def processCollapsed : List CollapsedCand → Except DetectError CollapsedMatch
  | [] => .error .patternMismatch
  | [m] => .ok m.toMatch
  | m :: ms =>
      let unpatched := (m :: ms).filter fun c => !c.isPatched
      if unpatched.length > 1 then .error (.ambiguous unpatched.length)
      else .ok (unpatched.headD m).toMatch

/-- `findCollapsedView`: locate the collapsed-view guard around the
`"∴ Thinking ("` anchor. -/
def findCollapsedView (ast : Js) : Except DetectError CollapsedMatch :=
  let occs := findStringLiteralsWithAncestors ast "∴ Thinking ("
  if occs.length = 0 then .error .notFound
  else processCollapsed (occs.filterMap collapsedCandOf)

/-- Scan state for one `case "thinking":` body, mirroring the statement
loop of `findSwitchCase`: later `if` / matching `return` statements
overwrite earlier ones; `hasIsTranscriptMode` latches. -/
structure SwitchScan where
  guardNode : Option Js
  returnNode : Option Js
  propsNode : Option Js
  hasIsTranscriptMode : Bool

/-- One statement step of the `findSwitchCase` body scan. -/
def scanStmt (st : SwitchScan) (stmt : Js) : SwitchScan :=
  let st1 :=
    match stmt with
    | .ifStmt _ _ _ _ _ => { st with guardNode := some stmt }
    | _ => st
  match stmt with
  | .returnStmt (some arg) _ _ =>
      if isCreateElementCall arg then
        let st2 := { st1 with returnNode := some stmt }
        match (argsOf arg).get? 1 with
        | some p =>
            let st3 := { st2 with propsNode := some p }
            match p with
            | .objExpr props _ _ =>
                if (findObjectProperty props "isTranscriptMode").isSome then
                  { st3 with hasIsTranscriptMode := true }
                else st3
            | _ => st3
        | none => st2
      else st1
  | _ => st1

/-- One `case "thinking":` candidate carrying `isTranscriptMode`. -/
structure SwitchCand where
  switchCase : Js
  guardNode : Option Js
  returnNode : Option Js
  propsNode : Option Js
  isPatched : Bool

/-- Successful result of `findSwitchCase`, as `buildSwitchCaseResult`
assembles it. -/
structure SwitchMatch where
  switchCase : Js
  propsNode : Option Js
  guardStart : Option Nat
  guardEnd : Option Nat
  guardNode : Option Js
  propsStart : Option Nat
  propsEnd : Option Nat
  isPatched : Bool

/-- Is this a `case "thinking":` node? -/
def isThinkingCase : Js → Bool
  | .switchCase (some (.lit (.str sv) _ _)) _ _ _ => sv == "thinking"
  | _ => false

/-- Build the candidate for one `case "thinking":`: unwrap an optional
block body, scan its statements, require a `createElement` return whose
props carry `isTranscriptMode`, and read `isPatched` off the current
`isTranscriptMode` value (`!0` means forced true). -/
def switchCandOf (sc : Js) : Option SwitchCand :=
  match sc with
  | .switchCase _ consequent _ _ =>
    match consequent with
    | [] => none
    | _ =>
      let statements :=
        match consequent with
        | [.block body _ _] => body
        | _ => consequent
      let scan := statements.foldl scanStmt ⟨none, none, none, false⟩
      if scan.hasIsTranscriptMode && scan.returnNode.isSome then
        let isPatched :=
          match scan.propsNode with
          | some (.objExpr props _ _) =>
            match findObjectProperty props "isTranscriptMode" with
            | some tp =>
              match propValueOf tp with
              | some (.unary "!" (.lit (.num 0) _ _) _ _) => true
              | _ => false
            | none => false
          | _ => false
        some ⟨sc, scan.guardNode, scan.returnNode, scan.propsNode, isPatched⟩
      else none
  | _ => none

/-- `buildSwitchCaseResult`: guard range only for an unpatched candidate
with a guard, props range when props exist. -/
def buildSwitchCaseResult (m : SwitchCand) : SwitchMatch :=
  let base : SwitchMatch :=
    ⟨m.switchCase, m.propsNode, none, none, none, none, none, m.isPatched⟩
  let withGuard :=
    match m.guardNode with
    | some g =>
        if !m.isPatched then
          { base with guardStart := some g.startN, guardEnd := some g.endN, guardNode := some g }
        else base
    | none => base
  match m.propsNode with
  | some p => { withGuard with propsStart := some p.startN, propsEnd := some p.endN }
  | none => withGuard

/-- Disambiguation step of `findSwitchCase`, same policy as the
collapsed view. -/
def processSwitchCands : List SwitchCand → Except DetectError SwitchMatch
  | [] => .error .patternMismatch
  | [c] => .ok (buildSwitchCaseResult c)
  | c :: cs =>
      let unpatched := (c :: cs).filter fun x => !x.isPatched
      if unpatched.length > 1 then .error (.ambiguous unpatched.length)
      else .ok (buildSwitchCaseResult (unpatched.headD c))

/-- All `case "thinking":` candidates of the tree. -/
def switchCands (ast : Js) : List SwitchCand :=
  ((allNodes ast).filter isThinkingCase).filterMap switchCandOf

/-- `findSwitchCase`: locate the thinking switch case in the message
renderer, disambiguated by the `isTranscriptMode` prop. -/
def findSwitchCase (ast : Js) : Except DetectError SwitchMatch :=
  let thinkingCases := (allNodes ast).filter isThinkingCase
  if thinkingCases.length = 0 then .error .notFound
  else processSwitchCands (thinkingCases.filterMap switchCandOf)

/-- One content-wrapper candidate near the expanded header. -/
structure WrapperCand where
  wrapperCall : Js
  contentCall : Js
  contentComponent : Option String
  contentVar : Option String
  contentPropsNode : Option Js
  reactVar : Option String
  isPatched : Bool

/-- Successful result of `findContentWrapper`. -/
structure WrapperMatch where
  wrapperCall : Js
  contentCall : Js
  contentComponent : Option String
  contentVar : Option String
  contentPropsNode : Option Js
  reactVar : Option String
  callStart : Nat
  callEnd : Nat
  isPatched : Bool

/-- Wrapper candidates contributed by one node: a `createElement` call
starting within 500 bytes after the header literal, props with
`paddingLeft`, one candidate per nested `createElement` child. -/
def wrapperCandsOfNode (headerEnd : Nat) (n : Js) : List WrapperCand :=
  match n with
  | .call _ args s _ =>
    if s < headerEnd || s > headerEnd + 500 then []
    else if !isCreateElementCall n then []
    else
      match args.get? 1 with
      | some (.objExpr props _ _) =>
        if (findObjectProperty props "paddingLeft").isNone then []
        else
          (args.drop 2).filterMap fun childArg =>
            if isCreateElementCall childArg then
              let contentPropsArg := (argsOf childArg).get? 1
              let contentComponent :=
                match (argsOf childArg).get? 0 with
                | some (.ident nm _ _) => some nm
                | _ => none
              let contentVar :=
                match (argsOf childArg).get? 2 with
                | some (.ident nm _ _) => some nm
                | _ => none
              let isPatched :=
                match contentPropsArg with
                | some (.objExpr cprops _ _) => (findObjectProperty cprops "color").isSome
                | _ => false
              some ⟨n, childArg, contentComponent, contentVar, contentPropsArg,
                    getReactVarFromCall n, isPatched⟩
            else none
      | _ => []
  | _ => []

/-- `findContentWrapper`: the `paddingLeft` wrapper holding the content
component, anchored right after the expanded header. -/
def findContentWrapper (ast : Js) : Except DetectError WrapperMatch :=
  match findExpandedHeader ast with
  | .error _ => .error .headerNotFound
  | .ok header =>
    let headerEnd := header.literal.endN
    match ((allNodes ast).map (wrapperCandsOfNode headerEnd)).flatten with
    | [] => .error .patternMismatch
    | [m] => .ok ⟨m.wrapperCall, m.contentCall, m.contentComponent, m.contentVar,
                  m.contentPropsNode, m.reactVar, m.wrapperCall.startN, m.wrapperCall.endN,
                  m.isPatched⟩
    | m1 :: m2 :: rest => .error (.ambiguous (m1 :: m2 :: rest).length)

/-- `isMemoCall`: a call whose callee is a member access ending in
`.memo`. -/
def isMemoCall (n : Js) : Bool :=
  match n with
  | .call callee _ _ _ =>
    match callee with
    | .member _ prop _ _ _ =>
        (match prop with
         | .ident nm _ _ => nm == "memo"
         | _ => false)
    | _ => false
  | _ => false

/-- One `createElement(DF, null, ...)` call inside the M8 component. -/
structure DfCall where
  start : Nat
  stop : Nat
  propsStart : Nat
  propsEnd : Nat
deriving DecidableEq

/-- Scan state collecting the root element and its null-props
`createElement` calls inside a memo'd function body. -/
structure DfScan where
  rootElement : Option String
  calls : List DfCall

/-- One step of the M8 body scan: a `createElement` call with a `null`
props literal captures the root element on first sight and is collected
when its type equals the root element. -/
def dfScanStep (st : DfScan) (innerNode : Js) : DfScan :=
  if !isCreateElementCall innerNode then st
  else
    match (argsOf innerNode).get? 1 with
    | some (.lit .nullV ps pe) =>
      let typeArg := (argsOf innerNode).get? 0
      let st1 :=
        match st.rootElement, typeArg with
        | none, some (.ident nm _ _) => { st with rootElement := some nm }
        | _, _ => st
      match typeArg, st1.rootElement with
      | some (.ident nm _ _), some re =>
          if nm == re then
            { st1 with calls := st1.calls ++ [⟨innerNode.startN, innerNode.endN, ps, pe⟩] }
          else st1
      | _, _ => st1
    | _ => st

/-- One memo'd-component candidate for M8. -/
structure M8Cand where
  memoNode : Js
  funcNode : Js
  childrenVar : String
  rootElement : Option String
  dfCreateCalls : List DfCall
  paramsStart : Nat
  paramsEnd : Nat
  reactVar : Option String

/-- Successful result of `findM8Component`. -/
structure M8Match where
  funcNode : Js
  childrenVar : String
  rootElement : Option String
  reactVar : Option String
  paramsStart : Nat
  paramsEnd : Nat
  dfCreateCalls : List DfCall
  isPatched : Bool

/-- Build the M8 candidate for one node: a memo call over a function
expression destructuring `children`, whose body holds at least three
null-props `createElement` calls to one root element. -/
def m8CandOf (n : Js) : Option M8Cand :=
  if !isMemoCall n then none
  else
    match (argsOf n).get? 0 with
    | some (.funcExpr params body fs fe) =>
      match params.get? 0 with
      | some (.objPattern pprops ps pe) =>
        let childrenProp := pprops.find? fun pr =>
          match pr with
          | .property k _ _ _ =>
              (match k with
               | .ident nm _ _ => nm == "children"
               | .lit v _ _ => decide (v = .str "children")
               | _ => false)
          | _ => false
        match childrenProp with
        | none => none
        | some cp =>
          match propValueOf cp with
          | some (.ident cv _ _) =>
            let scan := (allNodes body).foldl dfScanStep ⟨none, []⟩
            if scan.calls.length ≥ 3 then
              some ⟨n, .funcExpr params body fs fe, cv, scan.rootElement, scan.calls,
                    ps, pe, getReactVarFromCall n⟩
            else none
          | _ => none
      | _ => none
    | _ => none

/-- `findM8Component`: the memo'd ANSI parser component, filtered by the
raw-text fingerprints of its function body; `isPatched` is read off the
parameter text containing `color`. -/
def findM8Component (ast : Js) (code : Chars) : Except DetectError M8Match :=
  let memoedComponents := (allNodes ast).filterMap m8CandOf
  let validMatches := memoedComponents.filter fun m =>
    let funcCode := sliceTxt code m.funcNode.startN m.funcNode.endN
    containsSub ".length===1".toList funcCode &&
    containsSub "Object.keys".toList funcCode &&
    containsSub "typeof".toList funcCode
  match validMatches with
  | [] => .error .notFound
  | [m] =>
    let paramsCode := sliceTxt code m.paramsStart m.paramsEnd
    .ok ⟨m.funcNode, m.childrenVar, m.rootElement, m.reactVar, m.paramsStart, m.paramsEnd,
         m.dfCreateCalls, containsSub "color".toList paramsCode⟩
  | m1 :: m2 :: rest => .error (.ambiguous (m1 :: m2 :: rest).length)

/-- Result of `findContentComponentFunction`: the (last-visited) function
declaration with the given name and its extracted parameter facts. -/
structure FuncInfo where
  funcNode : Js
  childrenVar : Option String
  paramsNode : Option Js
  paramsStart : Option Nat
  paramsEnd : Option Nat

/-- Is this a function declaration named `nm`? -/
def funcDeclNamed (nm : String) : Js → Bool
  | .funcDecl (some idn) _ _ _ _ => idn == nm
  | _ => false

/-- Body of a function node. -/
def bodyOf : Js → Js
  | .funcDecl _ _ b _ _ => b
  | .funcExpr _ b _ _ => b
  | n => n

/-- `findContentComponentFunction`: the function declaration with the
given name (the last one the walk sees wins, as repeated assignment does
in the source), with the local name bound to the destructured `children`
field. -/
def findContentComponentFunction (ast : Js) (componentName : String) : Option FuncInfo :=
  match ((allNodes ast).filter (funcDeclNamed componentName)).getLast? with
  | none => none
  | some fn =>
    match fn with
    | .funcDecl _ params _ _ _ =>
      let childrenVar :=
        match params.get? 0 with
        | some (.objPattern pprops _ _) =>
          match pprops.find? (fun pr =>
            match pr with
            | .property (.ident "children" _ _) (.ident _ _ _) _ _ => true
            | _ => false) with
          | some (.property _ (.ident v _ _) _ _) => some v
          | _ => none
        | _ => none
      some ⟨fn, childrenVar, params.get? 0, (params.get? 0).map Js.startN,
            (params.get? 0).map Js.endN⟩
    | _ => none

/-- One `ARR.push(createElement(...))` pattern inside the content
component, with all facts needed to synthesize its replacement. -/
structure PushPat where
  arrayVar : String
  reactVar : String
  textElement : String
  stringVar : String
  propsNode : Js
  position : Nat
  stop : Nat

/-- Result of `findPushPattern`: nothing, an ambiguity, or the found
patterns with the function info. -/
inductive PushResult where
  | noneFound
  | ambiguous (count : Nat)
  | found (patterns : List PushPat) (funcInfo : FuncInfo)

/-- Build the push pattern for one node: an `ARR.push(...)` call whose
single argument is a `createElement` with a `key` prop and a
`(STR).trim()` child; patterns with any extraction failure are skipped. -/
def pushPatOf (node : Js) : Option PushPat :=
  match node with
  | .call (.member obj (.ident "push" _ _) _ _ _) args ns ne =>
    match identName obj with
    | none => none
    | some arrayVar =>
      match args.get? 0 with
      | some pushArg =>
        if !isCreateElementCall pushArg then none
        else
          let reactVar := getReactVarFromCall pushArg
          let textElement :=
            match (argsOf pushArg).get? 0 with
            | some (.ident nm _ _) => some nm
            | _ => none
          match (argsOf pushArg).get? 1 with
          | some propsArg =>
            match propsArg with
            | .objExpr props _ _ =>
              if (findObjectProperty props "key").isNone then none
              else
                let stringVar :=
                  match (argsOf pushArg).get? 2 with
                  | some (.call (.member (.ident sv _ _) (.ident "trim" _ _) _ _ _) _ _ _) =>
                      some sv
                  | _ => none
                match reactVar, textElement, stringVar with
                | some rv, some te, some sv =>
                    some ⟨arrayVar, rv, te, sv, propsArg, ns, ne⟩
                | _, _, _ => none
            | _ => none
          | none => none
      | none => none
  | _ => none

/-- `findPushPattern`: the push patterns inside the named content
component; more than one is AMBIGUOUS, none yields null. -/
def findPushPattern (ast : Js) (componentName : String) : PushResult :=
  match findContentComponentFunction ast componentName with
  | none => .noneFound
  | some funcInfo =>
    match (allNodes (bodyOf funcInfo.funcNode)).filterMap pushPatOf with
    | [] => .noneFound
    | [p] => .found [p] funcInfo
    | p1 :: p2 :: rest => .ambiguous (p1 :: p2 :: rest).length

/-- The `COLOR_PRESETS` table; `dim` maps to `null`. -/
def COLOR_PRESETS : List (String × Option String) :=
  [("dim", none), ("cyan", some "#00ffff"), ("green", some "#32cd32"),
   ("magenta", some "#ff00ff"), ("yellow", some "#ffff00"), ("blue", some "#4169e1"),
   ("red", some "#ff4444"), ("white", some "#ffffff"), ("pink", some "#ff69b4"),
   ("orange", some "#ff8c00"), ("purple", some "#9370db"), ("teal", some "#20b2aa"),
   ("gold", some "#ffd700"), ("lime", some "#00ff00"), ("coral", some "#ff7f50"),
   ("sky", some "#87ceeb")]

/-- The `THEME_PRESETS` table: theme name, header color, content color. -/
def THEME_PRESETS : List (String × String × String) :=
  [("watermelon", "#32cd32", "#FF77FF"), ("emerald-saffron", "#00C853", "#F4C24D"),
   ("bubblegum", "#87ceeb", "#FF77FF"), ("carrot", "#ff8c00", "#32cd32"),
   ("autumn", "#FFBF00", "#D2691E"), ("ocean", "#98D8C8", "#20B2AA"),
   ("forest", "#90EE90", "#228B22"), ("cherry-blossom", "#FF69B4", "#FFB6C1"),
   ("cyberpunk", "#FCE300", "#00F0FF")]

/-- Is `c` one of `0-9 a-f A-F`? -/
def isHexDigit (c : Char) : Bool :=
  ('0' ≤ c && c ≤ '9') || ('a' ≤ c && c ≤ 'f') || ('A' ≤ c && c ≤ 'F')

/-- The strict hex check `^#([0-9a-fA-F]{3}|[0-9a-fA-F]{6})$`. -/
def isHexColor (s : String) : Bool :=
  match s.toList with
  | '#' :: rest => (rest.length == 3 || rest.length == 6) && rest.all isHexDigit
  | _ => false

/-- `validateColor`: `null` passes through, a preset key resolves via
the table, a strict `#RGB`/`#RRGGBB` literal passes, anything else
throws. -/
def validateColor (color : Option String) : Except String (Option String) :=
  match color with
  | none => .ok none
  | some c =>
    match (COLOR_PRESETS.find? fun kv => kv.1 == c).map (fun kv => kv.2) with
    | some v => .ok v
    | none =>
      if isHexColor c then .ok (some c)
      else .error ("Invalid color " ++ c)

/-- The resolved header/content color pair. -/
structure Colors where
  headerColor : Option String
  contentColor : Option String

/-- `resolveColors` over the raw option values: a (truthy) known theme
resolves both colors from the theme table, otherwise the header color
comes from `--color` and the content color from `--content-color`,
defaulting to the header color. -/
def resolveColors (customColor contentColor theme : Option String) :
    Except String Colors :=
  let themeHit : Option (String × String) :=
    match theme with
    | some t =>
        if t == "" then none
        else (THEME_PRESETS.find? fun kv => kv.1 == t).map (fun kv => kv.2)
    | none => none
  match themeHit with
  | some pr => do
      let headerColor ← validateColor (some pr.1)
      let contentColor2 ← validateColor (some pr.2)
      return ⟨headerColor, contentColor2⟩
  | none => do
      let headerColor ←
        match customColor with
        | some cc => if cc == "" then pure none else validateColor (some cc)
        | none => pure none
      let contentColor2 ←
        match contentColor with
        | some cc => if cc == "" then pure headerColor else validateColor (some cc)
        | none => pure headerColor
      return ⟨headerColor, contentColor2⟩

/-- The five per-site detection results, as `main` collects them. -/
structure Detections where
  expandedHeader : Except DetectError HeaderMatch
  collapsedView : Except DetectError CollapsedMatch
  switchCase : Except DetectError SwitchMatch
  contentWrapper : Except DetectError WrapperMatch
  m8Component : Except DetectError M8Match

/-- Run all five matchers against one parse, as `main` does. -/
def detections (content : Chars) (ast : Js) : Detections :=
  ⟨findExpandedHeader ast, findCollapsedView ast, findSwitchCase ast,
   findContentWrapper ast, findM8Component ast content⟩

/-- Patch 1 of `applyPatches`: disable the collapsed-view guard by
overwriting the detected condition range with `!1`. -/
def patch1 (d : Detections) : List Edit × List String :=
  match d.collapsedView with
  | .ok cv =>
    if !cv.isPatched then
      ((match cv.conditionStart, cv.conditionEnd with
        | some s, some e => [⟨s, e, "!1".toList⟩]
        | _, _ => []),
       ["Collapsed view guard disabled"])
    else ([], ["Collapsed view guard (already patched)"])
  | .error _ => ([], [])

/-- Patch 2 of `applyPatches`: drop the transcript guard (number
truthiness of the offsets included) and force `isTranscriptMode:!0`,
`hideInTranscript:!1`. -/
def patch2 (d : Detections) : List Edit × List String :=
  match d.switchCase with
  | .ok sc =>
    if !sc.isPatched then
      let g :=
        match sc.guardStart, sc.guardEnd with
        | some gs, some ge => if gs != 0 && ge != 0 then [⟨gs, ge, []⟩] else []
        | _, _ => []
      let t :=
        match sc.propsNode with
        | some (.objExpr props _ _) =>
          (match findObjectProperty props "isTranscriptMode" with
           | some tp =>
             match propValueOf tp with
             | some v => [Edit.mk v.startN v.endN "!0".toList]
             | none => []
           | none => []) ++
          (match findObjectProperty props "hideInTranscript" with
           | some hp =>
             match propValueOf hp with
             | some v => [Edit.mk v.startN v.endN "!1".toList]
             | none => []
           | none => [])
        | _ => []
      (g ++ t, ["Switch case: transcript mode forced"])
    else ([], ["Switch case (already patched)"])
  | .error _ => ([], [])

/-- Patch 3 of `applyPatches`: overwrite the expanded-header props with
an italic + color object when a header color was requested. -/
def patch3 (colors : Colors) (d : Detections) : List Edit × List String :=
  match colors.headerColor with
  | some hc =>
    match d.expandedHeader with
    | .ok eh =>
      if !eh.isPatched then
        ([⟨eh.propsStart, eh.propsEnd, ("\x7bitalic:!0,color:\"" ++ hc ++ "\"\x7d").toList⟩],
         ["Header color: " ++ hc])
      else ([], ["Header color (already patched)"])
    | .error _ => ([], [])
  | none => ([], [])

/-- The synthesized replacement for one push pattern (direct M8
invocation, no wrapping). -/
def pushReplacement (push : PushPat) : Chars :=
  (push.arrayVar ++ ".push(" ++ push.reactVar ++ ".default.createElement(" ++
   push.textElement ++ ",\x7bkey:" ++ push.arrayVar ++ ".length,color:$TC\x7d,(" ++
   push.stringVar ++ "||\x27\x27).trim()))").toList

/-- Patch 4 of `applyPatches` (content color): rewrite the M8 signature
and its null-props `createElement` calls, thread the color through the
content wrapper and component, and rewrite the push patterns; an
ambiguous push pattern aborts the run (`process.exit(EXIT.AMBIGUOUS)`),
reported here as the error carrying the count. -/
def patch4 (ast : Js) (d : Detections) (colors : Colors) :
    Except Nat (List Edit × List String) :=
  match colors.contentColor with
  | none => .ok ([], [])
  | some cc =>
    match d.m8Component with
    | .error _ => .ok ([], [])
    | .ok m8 =>
      if !m8.isPatched then
        let e4a : List Edit :=
          [⟨m8.paramsStart, m8.paramsEnd,
            ("\x7bchildren:" ++ m8.childrenVar ++ ",color:$MC\x7d").toList⟩]
        let e4b : List Edit :=
          m8.dfCreateCalls.map fun c => ⟨c.propsStart, c.propsEnd, "\x7bcolor:$MC\x7d".toList⟩
        let labAB := ["M8 component: signature updated",
                      "M8 component: " ++ toString m8.dfCreateCalls.length ++
                      " createElement calls patched"]
        let step4c : Except Nat (List Edit × List String) :=
          match d.contentWrapper with
          | .error _ => .ok ([], [])
          | .ok cw =>
            match cw.contentComponent with
            | none => .ok ([], [])
            | some compName =>
              let e4c1 : List Edit :=
                match cw.contentPropsNode with
                | some (.lit .nullV s e) =>
                    [⟨s, e, ("\x7bcolor:\x27" ++ cc ++ "\x27\x7d").toList⟩]
                | _ => []
              match findContentComponentFunction ast compName with
              | none => .ok (e4c1, [])
              | some funcInfo =>
                match funcInfo.paramsNode, funcInfo.childrenVar with
                | some pn, some chv =>
                  let e4c2 : List Edit :=
                    [⟨pn.startN, pn.endN,
                      ("\x7bchildren:" ++ chv ++ ",color:$TC\x7d").toList⟩]
                  match findPushPattern ast compName with
                  | .ambiguous n => .error n
                  | .found patterns _ =>
                      .ok (e4c1 ++ e4c2 ++ patterns.map (fun push =>
                             ⟨push.position, push.stop, pushReplacement push⟩),
                           ["Content component: signature updated",
                            "Push patterns: direct M8 invocation (" ++
                            toString patterns.length ++ ")"])
                  | .noneFound =>
                      .ok (e4c1 ++ e4c2, ["Content component: signature updated"])
                | _, _ => .ok (e4c1, [])
        match step4c with
        | .error n => .error n
        | .ok (ec, pc) =>
            .ok (e4a ++ e4b ++ ec, labAB ++ pc ++ ["Content color: " ++ cc])
      else .ok ([], ["Content color (already patched)"])

/-- All edits and report labels `applyPatches` produces, in the order
the source registers them on the `MagicString`. -/
def applyPatchesEdits (ast : Js) (d : Detections) (colors : Colors) :
    Except Nat (List Edit × List String) :=
  match patch4 ast d colors with
  | .error n => .error n
  | .ok (e4, p4) =>
      .ok ((patch1 d).1 ++ (patch2 d).1 ++ (patch3 colors d).1 ++ e4,
           (patch1 d).2 ++ (patch2 d).2 ++ (patch3 colors d).2 ++ p4)

/-- How `applyPatches` can abort instead of returning text: the
push-pattern ambiguity exit, or a `MagicString` range fault (overlap or
out-of-bounds), which surfaces as an uncaught exception. -/
inductive PatchAbort where
  | ambiguousPush (count : Nat)
  | spliceFault
deriving DecidableEq

/-- `applyPatches`: synthesize the edits for every detected unpatched
site and splice them against the original text in a single pass. -/
def applyPatches (code : Chars) (ast : Js) (d : Detections) (colors : Colors) :
    Except PatchAbort (Chars × List String) :=
  match applyPatchesEdits ast d colors with
  | .error n => .error (.ambiguousPush n)
  | .ok (edits, patches) =>
    match splice code edits with
    | .ok out => .ok (out, patches)
    | .error _ => .error .spliceFault

/-- The `expectedPatches` argument of `verifyPatchedCode`: which
capabilities the caller requires to verify as patched. -/
structure ExpectedPatches where
  collapsedView : Bool
  switchCase : Bool
  headerColor : Bool
  contentColor : Bool

/-- Result of `verifyPatchedCode`. -/
structure Verification where
  valid : Bool
  checks : List String
  failures : List String

/-- Truthiness of `expectedPatches?.field` for an optional record. -/
def expF (f : ExpectedPatches → Bool) : Option ExpectedPatches → Bool
  | some ex => f ex
  | none => false

/-- `verifyPatchedCode`: re-parse the edited text (the caller passes the
parse result; `none` is the fatal re-parse failure) and re-run the
matchers.  A matcher that does not report `isPatched` adds a failure
only when `expectedPatches` flags that capability. -/
def verifyPatchedCode (astOpt : Option Js) (patchedCode : Chars) (colors : Colors)
    (expectedPatches : Option ExpectedPatches) : Verification :=
  match astOpt with
  | none => ⟨false, [], []⟩
  | some ast =>
    let (c1, f1) :=
      match findCollapsedView ast with
      | .ok r =>
          if r.isPatched then (["collapsed_guard"], [])
          else if expF (fun ex => ex.collapsedView) expectedPatches then
            ([], ["collapsed_guard: expected isPatched=true"])
          else ([], [])
      | .error _ =>
          if expF (fun ex => ex.collapsedView) expectedPatches then
            ([], ["collapsed_guard: expected isPatched=true"])
          else ([], [])
    let (c2, f2) :=
      match findSwitchCase ast with
      | .ok r =>
          if r.isPatched then (["transcript_mode"], [])
          else if expF (fun ex => ex.switchCase) expectedPatches then
            ([], ["transcript_mode: expected isPatched=true"])
          else ([], [])
      | .error _ =>
          if expF (fun ex => ex.switchCase) expectedPatches then
            ([], ["transcript_mode: expected isPatched=true"])
          else ([], [])
    let (c3, f3) :=
      match colors.headerColor with
      | some _ =>
        (match findExpandedHeader ast with
         | .ok r =>
             if r.isPatched then (["header_color"], [])
             else if expF (fun ex => ex.headerColor) expectedPatches then
               ([], ["header_color: expected isPatched=true"])
             else ([], [])
         | .error _ =>
             if expF (fun ex => ex.headerColor) expectedPatches then
               ([], ["header_color: expected isPatched=true"])
             else ([], []))
      | none => ([], [])
    let (c4, f4) :=
      match colors.contentColor with
      | some _ =>
        let (m, fm) :=
          match findM8Component ast patchedCode with
          | .ok r =>
              if r.isPatched then (["m8_color"], [])
              else if expF (fun ex => ex.contentColor) expectedPatches then
                ([], ["m8_color: expected M8 signature to have color param"])
              else ([], [])
          | .error _ =>
              if expF (fun ex => ex.contentColor) expectedPatches then
                ([], ["m8_color: expected M8 signature to have color param"])
              else ([], [])
        let c :=
          match findContentWrapper ast with
          | .ok r => if r.isPatched then ["content_color"] else []
          | .error _ => []
        (m ++ c, fm)
      | none => ([], [])
    let failures := f1 ++ f2 ++ f3 ++ f4
    ⟨failures.isEmpty, c1 ++ c2 ++ c3 ++ c4, failures⟩

/-- The filesystem as an association of paths to file contents; the only
externally observable state of the tool. -/
abbrev FS := List (String × Chars)

/-- `fs.readFileSync` as a total lookup. -/
def readF (fs : FS) (p : String) : Option Chars :=
  (fs.find? fun kv => kv.1 == p).map fun kv => kv.2

/-- `fs.existsSync`. -/
def existsF (fs : FS) (p : String) : Bool := (readF fs p).isSome

/-- `fs.writeFileSync` (create or replace). -/
def writeF (fs : FS) (p : String) (c : Chars) : FS :=
  (p, c) :: fs.filter fun kv => kv.1 != p

/-- `fs.copyFileSync src dst` (no-op on a missing source, which in the
modelled flows never happens). -/
def copyFileF (fs : FS) (src dst : String) : FS :=
  match readF fs src with
  | some c => writeF fs dst c
  | none => fs

/-- `fs.renameSync src dst`. -/
def renameF (fs : FS) (src dst : String) : FS :=
  match readF fs src with
  | some c => writeF (fs.filter fun kv => kv.1 != src) dst c
  | none => fs

/-- `atomicWrite`: back the target up first (only when no backup exists
yet), write the new content to a fresh temp file in the same directory,
then atomically rename it over the target.  Permission bits are not part
of the byte-level model. -/
def atomicWrite (fs : FS) (targetPath : String) (content : Chars)
    (backupPath tempPath : String) : FS :=
  let fs1 := if !existsF fs backupPath then copyFileF fs targetPath backupPath else fs
  let fs2 := writeF fs1 tempPath content
  renameF fs2 tempPath targetPath

/-- `restoreFromBackup`: copy the backup back over the target verbatim;
reports `false` (no copy) when no backup exists. -/
def restoreFromBackup (fs : FS) (cliPath backupPath : String) : FS × Bool :=
  if !existsF fs backupPath then (fs, false)
  else (copyFileF fs backupPath cliPath, true)

/-- The observable events of one run, in order: reading the target,
a successful parse, applying the patch set in memory, passing
verification, writing the target, restoring it, and an uncaught throw. -/
inductive Ev where
  | readTarget
  | parsedOk
  | applied
  | verified
  | wrote
  | restored
  | thrown
deriving DecidableEq

/-- The run-mode flags and styling options `main` consumes. -/
structure Flags where
  dryRun : Bool
  restoreFlag : Bool
  checkOnly : Bool
  customColor : Option String
  contentColor : Option String
  theme : Option String

/-- Result of one `main` run: process exit code, final filesystem, and
the ordered event trace. -/
structure Outcome where
  exit : Nat
  fs : FS
  events : List Ev
deriving DecidableEq

/-- `EXIT.SUCCESS` -/
def EXIT_SUCCESS : Nat := 0
/-- `EXIT.GENERAL_ERROR` (also the status of an uncaught exception). -/
def EXIT_GENERAL_ERROR : Nat := 1
/-- `EXIT.AMBIGUOUS` -/
def EXIT_AMBIGUOUS : Nat := 2
/-- `EXIT.VERIFICATION_FAILED` -/
def EXIT_VERIFICATION_FAILED : Nat := 3
/-- `EXIT.ALREADY_PATCHED` -/
def EXIT_ALREADY_PATCHED : Nat := 4

/-- `main`, modelled over an explicit parse oracle (the external acorn
parser) and a fresh temp-file name chosen by `atomicWrite`.  The
installation lookup result arrives as `cliPathOpt`.  Note the faithful
quirks: colors are resolved only after the target is read and parsed,
detection failures (including AMBIGUOUS) are only reported, and
`verifyPatchedCode` is called without `expectedPatches`. -/
def mainModel (flags : Flags) (cliPathOpt : Option String) (fs0 : FS)
    (parse : Chars → Option Js) (tempPath : String) : Outcome :=
  match cliPathOpt with
  | none => ⟨EXIT_GENERAL_ERROR, fs0, []⟩
  | some cliPath =>
    let backupPath := cliPath ++ ".backup"
    if flags.restoreFlag then
      if flags.dryRun then ⟨EXIT_SUCCESS, fs0, []⟩
      else
        let r := restoreFromBackup fs0 cliPath backupPath
        ⟨EXIT_SUCCESS, r.1, if r.2 then [.restored] else []⟩
    else
      match readF fs0 cliPath with
      | none => ⟨EXIT_GENERAL_ERROR, fs0, [.thrown]⟩
      | some content =>
        match parse content with
        | none => ⟨EXIT_GENERAL_ERROR, fs0, [.readTarget]⟩
        | some ast =>
          let d := detections content ast
          match resolveColors flags.customColor flags.contentColor flags.theme with
          | .error _ => ⟨EXIT_GENERAL_ERROR, fs0, [.readTarget, .parsedOk, .thrown]⟩
          | .ok colors =>
            let hasPatchablePatterns :=
              (okB d.expandedHeader && !patchedB (fun m => m.isPatched) d.expandedHeader) ||
              (okB d.collapsedView && !patchedB (fun m => m.isPatched) d.collapsedView) ||
              (okB d.switchCase && !patchedB (fun m => m.isPatched) d.switchCase) ||
              (colors.contentColor.isSome && okB d.m8Component &&
                !patchedB (fun m => m.isPatched) d.m8Component)
            let allPatched :=
              patchedB (fun m => m.isPatched) d.expandedHeader &&
              patchedB (fun m => m.isPatched) d.collapsedView &&
              patchedB (fun m => m.isPatched) d.switchCase
            if flags.checkOnly then
              if hasPatchablePatterns then ⟨EXIT_SUCCESS, fs0, [.readTarget, .parsedOk]⟩
              else if allPatched then ⟨EXIT_ALREADY_PATCHED, fs0, [.readTarget, .parsedOk]⟩
              else ⟨EXIT_GENERAL_ERROR, fs0, [.readTarget, .parsedOk]⟩
            else if !hasPatchablePatterns then
              if allPatched then ⟨EXIT_ALREADY_PATCHED, fs0, [.readTarget, .parsedOk]⟩
              else ⟨EXIT_GENERAL_ERROR, fs0, [.readTarget, .parsedOk]⟩
            else
              match applyPatches content ast d colors with
              | .error (.ambiguousPush _) =>
                  ⟨EXIT_AMBIGUOUS, fs0, [.readTarget, .parsedOk]⟩
              | .error .spliceFault =>
                  ⟨EXIT_GENERAL_ERROR, fs0, [.readTarget, .parsedOk, .thrown]⟩
              | .ok (patchedCode, _patches) =>
                let verification :=
                  verifyPatchedCode (parse patchedCode) patchedCode colors none
                if !verification.valid then
                  ⟨EXIT_VERIFICATION_FAILED, fs0, [.readTarget, .parsedOk, .applied]⟩
                else if flags.dryRun then
                  ⟨EXIT_SUCCESS, fs0, [.readTarget, .parsedOk, .applied, .verified]⟩
                else
                  ⟨EXIT_SUCCESS,
                   atomicWrite fs0 cliPath patchedCode backupPath tempPath,
                   [.readTarget, .parsedOk, .applied, .verified, .wrote]⟩

/-- The detection-plus-patch pipeline on one text, with the parse
oracle: the edited text, or `none` on a parse failure or abort. -/
def pipeline (parse : Chars → Option Js) (colors : Colors) (code : Chars) : Option Chars :=
  match parse code with
  | none => none
  | some ast =>
    match applyPatches code ast (detections code ast) colors with
    | .ok (out, _) => some out
    | .error _ => none

/-- All five sites detected and reporting `isPatched` — the model of a
fully patched text. -/
def allSitesPatched (d : Detections) : Bool :=
  patchedB (fun m => m.isPatched) d.expandedHeader &&
  patchedB (fun m => m.isPatched) d.collapsedView &&
  patchedB (fun m => m.isPatched) d.switchCase &&
  patchedB (fun m => m.isPatched) d.contentWrapper &&
  patchedB (fun m => m.isPatched) d.m8Component

/-- No patch block of `applyPatches` has anything to do: every site is
failed or already patched (color sites only matter when the matching
color is resolved). -/
def noEditNeeded (d : Detections) (colors : Colors) : Bool :=
  !(okB d.collapsedView && !patchedB (fun m => m.isPatched) d.collapsedView) &&
  !(okB d.switchCase && !patchedB (fun m => m.isPatched) d.switchCase) &&
  !(colors.headerColor.isSome && okB d.expandedHeader &&
      !patchedB (fun m => m.isPatched) d.expandedHeader) &&
  !(colors.contentColor.isSome && okB d.m8Component &&
      !patchedB (fun m => m.isPatched) d.m8Component)

/-- Fixture A: the 26-character program `if(!(a||b))"∴ Thinking (";` —
one unpatched collapsed-view guard and nothing else. -/
def ifA : Js :=
  .ifStmt (.unary "!" (.logical "||" (.ident "a" 5 6) (.ident "b" 8 9) 4 10) 3 10)
    (.exprStmt (.lit (.str "∴ Thinking (") 11 25) 11 26) none 0 26

/-- Fixture A tree. -/
def astA : Js := .program [ifA] 0 26

/-- Fixture A text. -/
def codeA : Chars := "if(!(a||b))\"∴ Thinking (\";".toList

/-- Fixture A after the collapsed-view patch. -/
def outA : Chars := codeA.take 3 ++ "!1".toList ++ codeA.drop 10

/-- The re-parse of fixture A's patched text. -/
def astA2 : Js :=
  .program [.ifStmt (.unary "!" (.lit (.num 1) 4 5) 3 5)
    (.exprStmt (.lit (.str "∴ Thinking (") 6 20) 6 21) none 0 21] 0 21

/-- Parse oracle for fixture A. -/
def parseA : Chars → Option Js := fun c =>
  if c = codeA then some astA else if c = outA then some astA2 else none

/-- Fixture A's collapsed-view candidate. -/
def candA : CollapsedCand :=
  ⟨.lit (.str "∴ Thinking (") 11 25, ifA, some 3, some 10, some "a", some "b", false⟩

/-- Flags of the C1 run: `--color=green`, no other options. -/
def flagsA : Flags := ⟨false, false, false, some "green", none, none⟩

/-- The filesystem holding fixture A as the target. -/
def fsA : FS := [("cli.js", codeA)]

/-- The C1 run. -/
def ocA : Outcome := mainModel flagsA (some "cli.js") fsA parseA "cli.js.tmp0"

/-- Fixture B switch-case `createElement` call (unpatched transcript
mode, props value the identifier `q` at bytes 68-69). -/
def swCallB : Js :=
  .call (.member (.ident "A" 32 33) (.ident "createElement" 34 47) false 32 47)
    [.ident "T" 48 49,
     .objExpr [.property (.ident "isTranscriptMode" 51 67) (.ident "q" 68 69) 51 69] 50 70]
    32 71

/-- Fixture B `case "thinking":`. -/
def swCaseB : Js :=
  .switchCase (some (.lit (.str "thinking") 14 24)) [.returnStmt (some swCallB) 25 71] 10 71

/-- Fixture B switch statement. -/
def swStmtB : Js := .switchStmt (.ident "y" 7 8) [swCaseB] 0 72

/-- Fixture B first collapsed guard (unpatched `!(c||d)`). -/
def if1B : Js :=
  .ifStmt (.unary "!" (.logical "||" (.ident "c" 77 78) (.ident "d" 80 81) 76 81) 75 82)
    (.exprStmt (.lit (.str "∴ Thinking (") 83 97) 83 98) none 72 98

/-- Fixture B second collapsed guard (unpatched `!(g||h)`). -/
def if2B : Js :=
  .ifStmt (.unary "!" (.logical "||" (.ident "g" 103 104) (.ident "h" 106 107) 102 107) 101 108)
    (.exprStmt (.lit (.str "∴ Thinking (") 109 123) 109 124) none 98 124

/-- Fixture B: an unpatched thinking switch case followed by two
simultaneously unpatched collapsed-view guards. -/
def astB : Js := .program [swStmtB, if1B, if2B] 0 124

/-- Fixture B text. -/
def codeB : Chars :=
  ("switch(y)\x7bcase\"thinking\":return A.createElement(T,\x7bisTranscriptMode:q\x7d)\x7d" ++
   "if(!(c||d))\"∴ Thinking (\";if(!(g||h))\"∴ Thinking (\";").toList

/-- Fixture B after the switch-case patch. -/
def outB : Chars := codeB.take 68 ++ "!0".toList ++ codeB.drop 69

/-- The re-parse of fixture B's patched text: transcript mode now
`!0`, every later offset shifted by one. -/
def astB2 : Js :=
  .program
    [.switchStmt (.ident "y" 7 8)
      [.switchCase (some (.lit (.str "thinking") 14 24))
        [.returnStmt (some
          (.call (.member (.ident "A" 32 33) (.ident "createElement" 34 47) false 32 47)
            [.ident "T" 48 49,
             .objExpr [.property (.ident "isTranscriptMode" 51 67)
               (.unary "!" (.lit (.num 0) 69 70) 68 70) 51 70] 50 71]
            32 72)) 25 72] 10 72] 0 73,
     .ifStmt (.unary "!" (.logical "||" (.ident "c" 78 79) (.ident "d" 81 82) 77 82) 76 83)
       (.exprStmt (.lit (.str "∴ Thinking (") 84 98) 84 99) none 73 99,
     .ifStmt (.unary "!" (.logical "||" (.ident "g" 104 105) (.ident "h" 107 108) 103 108) 102 109)
       (.exprStmt (.lit (.str "∴ Thinking (") 110 124) 110 125) none 99 125] 0 125

/-- Parse oracle for fixture B. -/
def parseB : Chars → Option Js := fun c =>
  if c = codeB then some astB else if c = outB then some astB2 else none

/-- Flags of the C2 run: no options at all. -/
def flagsB : Flags := ⟨false, false, false, none, none, none⟩

/-- The filesystem holding fixture B as the target. -/
def fsB : FS := [("cli.js", codeB)]

/-- The C2 run. -/
def ocB : Outcome := mainModel flagsB (some "cli.js") fsB parseB "cli.js.tmp0"

/-- Fixture C: one of two identical, already patched expanded-header
`createElement` calls (props carry `color`). -/
def callC (k : Nat) : Js :=
  .call (.member (.ident "A" k (k+1)) (.ident "createElement" (k+2) (k+15)) false k (k+15))
    [.ident "T" (k+16) (k+17),
     .objExpr [.property (.ident "color" (k+19) (k+24)) (.lit (.str "x") (k+25) (k+29)) (k+19) (k+29)] (k+18) (k+30),
     .lit (.str "∴ Thinking…") (k+31) (k+39)]
    k (k+40)

/-- Fixture C: two already patched expanded-header candidates. -/
def astC : Js :=
  .program [.exprStmt (callC 0) 0 41, .exprStmt (callC 50) 50 91] 0 100

/-- Fixture D text: the byte span backing the (already patched) M8
component — its parameter text contains `color`, its body carries the
three fingerprints. -/
def codeD : Chars :=
  "(\x7bchildren:Q,color:Z\x7d)Q.length===1;Object.keys(Q);typeof Q;".toList

/-- Fixture D: one `createElement(D, null, Q)` call of the M8 body. -/
def dfD (k : Nat) : Js :=
  .call (.member (.member (.ident "R" k (k+1)) (.ident "default" (k+2) (k+9)) false k (k+9))
           (.ident "createElement" (k+10) (k+23)) false k (k+23))
    [.ident "D" (k+24) (k+25), .lit .nullV (k+26) (k+30), .ident "Q" (k+31) (k+32)]
    k (k+33)

/-- Fixture D M8 parameter pattern `{children:Q,color:Z}` at bytes 1-21. -/
def m8ParamsD : Js :=
  .objPattern [.property (.ident "children" 2 10) (.ident "Q" 11 12) 2 12,
               .property (.ident "color" 13 18) (.ident "Z" 19 20) 13 20] 1 21

/-- Fixture D M8 function body with three null-props root-element calls. -/
def m8BodyD : Js :=
  .block [.exprStmt (dfD 200) 200 234, .exprStmt (dfD 240) 240 274,
          .exprStmt (dfD 280) 280 314] 22 59

/-- Fixture D memo'd M8 component (already patched). -/
def m8CallD : Js :=
  .call (.member (.ident "R" 900 901) (.ident "memo" 902 906) false 900 906)
    [.funcExpr [m8ParamsD] m8BodyD 0 59] 900 960

/-- Fixture D patched collapsed-view guard `if(!1)`. -/
def ifD : Js :=
  .ifStmt (.unary "!" (.lit (.num 1) 100 101) 99 101)
    (.exprStmt (.lit (.str "∴ Thinking (") 102 116) 102 117) none 95 117

/-- Fixture D patched thinking switch case (`isTranscriptMode:!0`). -/
def switchD : Js :=
  .switchStmt (.ident "y" 120 121)
    [.switchCase (some (.lit (.str "thinking") 125 135))
      [.returnStmt (some
        (.call (.member (.member (.ident "R" 140 141) (.ident "default" 142 149) false 140 149)
                  (.ident "createElement" 150 163) false 140 163)
          [.ident "W" 164 165,
           .objExpr [.property (.ident "isTranscriptMode" 167 183)
             (.unary "!" (.lit (.num 0) 185 186) 184 186) 167 186] 166 187]
          140 188)) 136 190] 123 190] 118 191

/-- Fixture D patched expanded header (props already carry `color`). -/
def hCallD : Js :=
  .call (.member (.member (.ident "R" 200 201) (.ident "default" 202 209) false 200 209)
           (.ident "createElement" 210 223) false 200 223)
    [.ident "H" 224 225,
     .objExpr [.property (.ident "italic" 227 233) (.unary "!" (.lit (.num 0) 235 236) 234 236) 227 236,
               .property (.ident "color" 237 242) (.lit (.str "#fff") 243 249) 237 249] 226 250,
     .lit (.str "∴ Thinking…") 251 264]
    200 265

/-- Fixture D patched content component call inside the wrapper. -/
def innerCallD : Js :=
  .call (.member (.member (.ident "R" 308 309) (.ident "default" 310 317) false 308 317)
           (.ident "createElement" 318 331) false 308 331)
    [.ident "F" 332 333,
     .objExpr [.property (.ident "color" 335 340) (.lit (.str "#abc") 341 347) 335 347] 334 348,
     .ident "S" 349 350]
    308 351

/-- Fixture D patched `paddingLeft` content wrapper just after the
header literal. -/
def wCallD : Js :=
  .call (.member (.member (.ident "R" 266 267) (.ident "default" 268 275) false 266 275)
           (.ident "createElement" 276 289) false 266 289)
    [.ident "P" 290 291,
     .objExpr [.property (.ident "paddingLeft" 293 304) (.lit (.num 2) 305 306) 293 306] 292 307,
     innerCallD]
    266 330

/-- Fixture D: a tree in which all five sites are already patched. -/
def astD : Js :=
  .program [.exprStmt m8CallD 900 961, ifD, switchD,
            .exprStmt hCallD 200 266, .exprStmt wCallD 266 331] 0 1000

/-- Parse oracle for fixture D. -/
def parseD : Chars → Option Js := fun c => if c = codeD then some astD else none

/-- Fixture E: the switch part of fixture B plus a single unpatched
collapsed guard — two sites get edited in one pass. -/
def astE : Js := .program [swStmtB, if1B] 0 98

/-- Fixture E text. -/
def codeE : Chars := codeB.take 98

/-- The two edits `applyPatches` synthesizes for fixture E. -/
def editsE : List Edit := [⟨75, 82, "!1".toList⟩, ⟨68, 69, "!0".toList⟩]

/-- Fixture E output: both the switch props value and the guard test are
replaced. -/
def outE : Chars :=
  sliceTxt codeE 0 68 ++ "!0".toList ++ sliceTxt codeE 69 75 ++ "!1".toList ++ codeE.drop 82

/-- Flags of the C7 run: `--color=red;x` (neither preset nor hex). -/
def flagsF : Flags := ⟨false, false, false, some "red;x", none, none⟩

/-- The C7 run against fixture A's filesystem. -/
def ocF : Outcome := mainModel flagsF (some "cli.js") fsA parseA "cli.js.tmp0"

theorem mem_insEdit {a x : Edit} {l : List Edit} : a ∈ insEdit x l ↔ a = x ∨ a ∈ l := by
  induction l with
  | nil => simp [insEdit]
  | cons y ys ih =>
      simp only [insEdit]
      by_cases h : x.s ≤ y.s
      · simp [h]
      · simp only [h, if_false, List.mem_cons, ih]
        tauto

theorem mem_sortEdits {a : Edit} {l : List Edit} : a ∈ sortEdits l ↔ a ∈ l := by
  induction l with
  | nil => simp [sortEdits]
  | cons x xs ih => simp [sortEdits, mem_insEdit, ih]

theorem chainOk_le {len : Nat} : ∀ {edits : List Edit} {pos : Nat},
    chainOk len pos edits = true → pos ≤ len := by
  intro edits
  induction edits with
  | nil => intro pos h; simpa [chainOk] using h
  | cons ed rest ih =>
      intro pos h
      simp only [chainOk, Bool.and_eq_true, decide_eq_true_eq] at h
      exact le_trans (le_trans h.1.1 h.1.2) (ih h.2)

theorem sliceTxt_length {t : Chars} {a b : Nat} (h : b ≤ t.length) :
    (sliceTxt t a b).length = b - a := by
  simp [sliceTxt]
  omega

/-- Frame property of the splicing step: any input byte at an offset `p`
past the current position and outside every edit range survives into the
output, at the index computed by `shiftFrom`. -/
theorem spliceGo_frame (t : Chars) :
    ∀ (edits : List Edit) (pos p : Nat),
      chainOk t.length pos edits = true →
      pos ≤ p → p < t.length →
      (∀ ed ∈ edits, p < ed.s ∨ ed.e ≤ p) →
      (spliceGo t pos edits)[shiftFrom pos edits p]? = t[p]? := by
  intro edits
  induction edits with
  | nil =>
      intro pos p _ hpos _ _
      simp only [spliceGo, shiftFrom, List.getElem?_drop]
      rw [Nat.add_sub_cancel' hpos]
  | cons ed rest ih =>
      intro pos p hc hpos hp hout
      simp only [chainOk, Bool.and_eq_true, decide_eq_true_eq] at hc
      obtain ⟨⟨hpos_s, hse⟩, hrest⟩ := hc
      have helen : ed.e ≤ t.length := chainOk_le hrest
      have hAlen : (sliceTxt t pos ed.s).length = ed.s - pos :=
        sliceTxt_length (le_trans hse helen)
      simp only [spliceGo, shiftFrom]
      rw [List.append_assoc]
      by_cases hps : p < ed.s
      · simp only [hps, if_true]
        rw [List.getElem?_append_left (by rw [hAlen]; omega)]
        simp only [sliceTxt, List.getElem?_drop]
        rw [Nat.add_sub_cancel' hpos]
        exact List.getElem?_take_of_lt hps
      · have hep : ed.e ≤ p := by
          rcases hout ed (List.mem_cons_self _ _) with h | h
          · omega
          · exact h
        simp only [hps, if_false]
        rw [List.getElem?_append_right (by rw [hAlen]; omega)]
        rw [hAlen]
        have hidx : ed.s - pos + ed.repl.length + shiftFrom ed.e rest p - (ed.s - pos)
            = ed.repl.length + shiftFrom ed.e rest p := by omega
        rw [hidx, List.getElem?_append_right (by omega)]
        have hidx2 : ed.repl.length + shiftFrom ed.e rest p - ed.repl.length
            = shiftFrom ed.e rest p := by omega
        rw [hidx2]
        exact ih ed.e p hrest hep hp (fun x hx => hout x (List.mem_cons_of_mem _ hx))

theorem patch1_nil {d : Detections}
    (h : (okB d.collapsedView && !patchedB (fun m => m.isPatched) d.collapsedView) = false) :
    (patch1 d).1 = [] := by
  unfold patch1
  cases hcv : d.collapsedView with
  | error er => rfl
  | ok cv =>
      rw [hcv] at h
      simp only [okB, patchedB, Bool.true_and] at h
      simp [h]

theorem patch2_nil {d : Detections}
    (h : (okB d.switchCase && !patchedB (fun m => m.isPatched) d.switchCase) = false) :
    (patch2 d).1 = [] := by
  unfold patch2
  cases hsc : d.switchCase with
  | error er => rfl
  | ok sc =>
      rw [hsc] at h
      simp only [okB, patchedB, Bool.true_and] at h
      simp [h]

theorem patch3_nil {colors : Colors} {d : Detections}
    (h : (colors.headerColor.isSome && okB d.expandedHeader &&
          !patchedB (fun m => m.isPatched) d.expandedHeader) = false) :
    (patch3 colors d).1 = [] := by
  unfold patch3
  cases hh : colors.headerColor with
  | none => rfl
  | some hc =>
      rw [hh] at h
      cases heh : d.expandedHeader with
      | error er => rfl
      | ok eh =>
          rw [heh] at h
          simp only [okB, patchedB, Option.isSome_some, Bool.true_and] at h
          simp [h]

theorem patch4_nil (ast : Js) {d : Detections} {colors : Colors}
    (h : (colors.contentColor.isSome && okB d.m8Component &&
          !patchedB (fun m => m.isPatched) d.m8Component) = false) :
    ∃ ps, patch4 ast d colors = .ok ([], ps) := by
  unfold patch4
  cases hcc : colors.contentColor with
  | none => exact ⟨[], rfl⟩
  | some cc =>
      rw [hcc] at h
      cases hm : d.m8Component with
      | error er => exact ⟨[], rfl⟩
      | ok m8 =>
          rw [hm] at h
          simp only [okB, patchedB, Option.isSome_some, Bool.true_and] at h
          exact ⟨["Content color (already patched)"], by simp [h]⟩

theorem applyPatchesEdits_nil (ast : Js) {d : Detections} {colors : Colors}
    (h : noEditNeeded d colors = true) :
    ∃ ps, applyPatchesEdits ast d colors = .ok ([], ps) := by
  unfold noEditNeeded at h
  simp only [Bool.and_eq_true, Bool.not_eq_true'] at h
  obtain ⟨⟨⟨h1, h2⟩, h3⟩, h4⟩ := h
  obtain ⟨ps4, hp4⟩ := patch4_nil ast h4
  refine ⟨(patch1 d).2 ++ (patch2 d).2 ++ (patch3 colors d).2 ++ ps4, ?_⟩
  unfold applyPatchesEdits
  rw [hp4, patch1_nil h1, patch2_nil h2, patch3_nil h3]
  simp

theorem splice_nil (code : Chars) : splice code [] = .ok code := by
  simp [splice, sortEdits, chainOk, spliceGo]

theorem applyPatches_nil (code : Chars) (ast : Js) {d : Detections} {colors : Colors}
    (h : noEditNeeded d colors = true) :
    ∃ ps, applyPatches code ast d colors = .ok (code, ps) := by
  obtain ⟨ps, hp⟩ := applyPatchesEdits_nil ast h
  refine ⟨ps, ?_⟩
  unfold applyPatches
  rw [hp]
  dsimp only
  rw [splice_nil]

theorem site_noedit {α : Type} (f : α → Bool) {r : Except DetectError α}
    (h : patchedB f r = true) : (okB r && !patchedB f r) = false := by
  cases r <;> simp_all [okB, patchedB]

theorem allSitesPatched_noEdit {d : Detections} {colors : Colors}
    (h : allSitesPatched d = true) : noEditNeeded d colors = true := by
  unfold allSitesPatched at h
  simp only [Bool.and_eq_true] at h
  obtain ⟨⟨⟨⟨hh, hcv⟩, hsc⟩, hcw⟩, hm8⟩ := h
  unfold noEditNeeded
  rw [site_noedit (fun m : CollapsedMatch => m.isPatched) hcv,
      site_noedit (fun m : SwitchMatch => m.isPatched) hsc]
  have hh2 : (colors.headerColor.isSome && okB d.expandedHeader &&
      !patchedB (fun m => m.isPatched) d.expandedHeader) = false := by
    have hx := site_noedit (fun m : HeaderMatch => m.isPatched) hh
    cases hokb : okB d.expandedHeader <;> simp_all
  have hm2 : (colors.contentColor.isSome && okB d.m8Component &&
      !patchedB (fun m => m.isPatched) d.m8Component) = false := by
    have hx := site_noedit (fun m : M8Match => m.isPatched) hm8
    cases hokb : okB d.m8Component <;> simp_all
  rw [hh2, hm2]
  rfl

/-- Claim C6: every successful `applyPatches` run splices the original
text: the output is exactly the concatenation of the untouched spans
with the replacement texts in order, and every input byte outside the
synthesized edit ranges survives verbatim at its shifted offset. -/
theorem claim_C6_splice_frame (code : Chars) (ast : Js) (d : Detections) (colors : Colors)
    (edits : List Edit) (labels : List String) (out : Chars)
    (h1 : applyPatchesEdits ast d colors = .ok (edits, labels))
    (h2 : splice code edits = .ok out) :
    applyPatches code ast d colors = .ok (out, labels) ∧
    out = spliceGo code 0 (sortEdits edits) ∧
    ∀ p, p < code.length → (∀ ed ∈ edits, p < ed.s ∨ ed.e ≤ p) →
      out[shiftFrom 0 (sortEdits edits) p]? = code[p]? := by
  have hchain : chainOk code.length 0 (sortEdits edits) = true := by
    cases hcb : chainOk code.length 0 (sortEdits edits) with
    | true => rfl
    | false => simp [splice, hcb] at h2
  have hout : out = spliceGo code 0 (sortEdits edits) := by
    simp only [splice, hchain, if_true] at h2
    cases h2
    rfl
  refine ⟨?_, hout, ?_⟩
  · unfold applyPatches
    rw [h1]
    dsimp only
    rw [h2]
  · intro p hp houts
    rw [hout]
    exact spliceGo_frame code (sortEdits edits) 0 p hchain (Nat.zero_le p) hp
      (fun ed hed => houts ed (mem_sortEdits.mp hed))

set_option maxRecDepth 40000 in
/-- Witness for C6: the two-edit run of fixture E; the byte at offset 0
(outside both edit ranges) survives at its shifted offset. -/
theorem claim_C6_splice_frame_witness :
    applyPatches codeE astE (detections codeE astE) ⟨none, none⟩ =
      .ok (outE, ["Collapsed view guard disabled", "Switch case: transcript mode forced"]) ∧
    outE[shiftFrom 0 (sortEdits editsE) 0]? = codeE[0]? := by
  have h := claim_C6_splice_frame codeE astE (detections codeE astE) ⟨none, none⟩ editsE
    ["Collapsed view guard disabled", "Switch case: transcript mode forced"] outE rfl rfl
  exact ⟨h.1, h.2.2 0 (by decide) (by decide)⟩

/-- Claim C9: with no color, content-color or theme option, the resolved
colors are both null, the edit list is exactly the collapsed-view and
switch-case edits, and the expanded-header, content-wrapper and M8
detections have no influence at all on the produced edits. -/
theorem claim_C9_no_color_frame :
    resolveColors none none none = .ok ⟨none, none⟩ ∧
    (∀ (ast : Js) (d : Detections) (eh : Except DetectError HeaderMatch)
       (cw : Except DetectError WrapperMatch) (m8 : Except DetectError M8Match),
       applyPatchesEdits ast
         { d with expandedHeader := eh, contentWrapper := cw, m8Component := m8 }
         ⟨none, none⟩ =
       applyPatchesEdits ast d ⟨none, none⟩) ∧
    (∀ (ast : Js) (d : Detections),
       applyPatchesEdits ast d ⟨none, none⟩ =
         .ok ((patch1 d).1 ++ (patch2 d).1, (patch1 d).2 ++ (patch2 d).2)) := by
  refine ⟨rfl, ?_, ?_⟩
  · intro ast d eh cw m8
    simp [applyPatchesEdits, patch1, patch2, patch3, patch4]
  · intro ast d
    simp [applyPatchesEdits, patch3, patch4]

theorem readF_cons (k : String) (v : Chars) (fs : FS) (q : String) :
    readF ((k, v) :: fs) q = if (k == q) then some v else readF fs q := by
  simp only [readF, List.find?]
  cases hkq : (k == q) <;> simp [hkq]

theorem readF_filter_ne (fs : FS) (p q : String) (h : q ≠ p) :
    readF (fs.filter fun kv => kv.1 != p) q = readF fs q := by
  induction fs with
  | nil => rfl
  | cons kv t ih =>
      obtain ⟨k, v⟩ := kv
      by_cases hkp : k = p
      · have hkq : (k == q) = false := by
          rw [hkp]
          exact beq_eq_false_iff_ne.mpr (Ne.symm h)
        have hfp : ((k, v).1 != p) = false := by simp [hkp]
        rw [List.filter_cons, hfp]
        simp only [Bool.false_eq_true, if_false]
        rw [ih, readF_cons, hkq]
        simp
      · have hfp : ((k, v).1 != p) = true := by simp [hkp]
        rw [List.filter_cons, hfp]
        simp only [if_true]
        rw [readF_cons, readF_cons, ih]

theorem readF_writeF_same (fs : FS) (p : String) (c : Chars) :
    readF (writeF fs p c) p = some c := by
  unfold writeF
  rw [readF_cons]
  simp

theorem readF_writeF_ne (fs : FS) (p : String) (c : Chars) (q : String) (h : q ≠ p) :
    readF (writeF fs p c) q = readF fs q := by
  unfold writeF
  rw [readF_cons]
  have hpq : (p == q) = false := beq_eq_false_iff_ne.mpr (Ne.symm h)
  rw [hpq]
  simp only [Bool.false_eq_true, if_false]
  exact readF_filter_ne fs p q h

/-- Claim C8: with no pre-existing backup, applying (backup the target,
write new content, atomic rename) and then restoring (copy the backup
back over the target) leaves the target's bytes exactly equal to its
pre-apply bytes. -/
theorem claim_C8_apply_restore_roundtrip (fs : FS) (target backup temp : String)
    (content orig : Chars)
    (hb : existsF fs backup = false)
    (ht : readF fs target = some orig)
    (h1 : temp ≠ target) (h2 : temp ≠ backup) (h3 : backup ≠ target) :
    readF (restoreFromBackup (atomicWrite fs target content backup temp) target backup).1
      target = some orig := by
  have hcopy : copyFileF fs target backup = writeF fs backup orig := by
    unfold copyFileF
    rw [ht]
  have hfs1 : (if !existsF fs backup then copyFileF fs target backup else fs) =
      writeF fs backup orig := by
    rw [hb, hcopy]
    rfl
  unfold atomicWrite
  rw [hfs1]
  have htemp : readF (writeF (writeF fs backup orig) temp content) temp = some content :=
    readF_writeF_same _ _ _
  unfold renameF
  dsimp only
  rw [htemp]
  set fs3 := writeF ((writeF (writeF fs backup orig) temp content).filter
    fun kv => kv.1 != temp) target content with hfs3
  have hback : readF fs3 backup = some orig := by
    rw [hfs3, readF_writeF_ne _ _ _ _ h3, readF_filter_ne _ _ _ (Ne.symm h2),
        readF_writeF_ne _ _ _ _ (Ne.symm h2), readF_writeF_same]
  unfold restoreFromBackup
  have hex : existsF fs3 backup = true := by
    unfold existsF
    rw [hback]
    rfl
  rw [hex]
  simp only [Bool.not_true, Bool.false_eq_true, if_false]
  unfold copyFileF
  rw [hback]
  exact readF_writeF_same _ _ _

/-- Witness for C8: a concrete filesystem round-trip. -/
theorem claim_C8_apply_restore_roundtrip_witness :
    readF (restoreFromBackup
        (atomicWrite [("t", "ab".toList)] "t" "xy".toList "t.backup" "t.tmp")
        "t" "t.backup").1 "t" = some "ab".toList :=
  claim_C8_apply_restore_roundtrip [("t", "ab".toList)] "t" "t.backup" "t.tmp"
    "xy".toList "ab".toList (by decide) (by decide) (by decide) (by decide) (by decide)

/-- Claim C10: a restore run with no backup present leaves the whole
filesystem (in particular the target file) untouched and exits with the
success status 0. -/
theorem claim_C10_restore_without_backup (flags : Flags) (cliPath : String) (fs : FS)
    (parse : Chars → Option Js) (temp : String)
    (hr : flags.restoreFlag = true)
    (hb : existsF fs (cliPath ++ ".backup") = false) :
    (mainModel flags (some cliPath) fs parse temp).exit = EXIT_SUCCESS ∧
    (mainModel flags (some cliPath) fs parse temp).fs = fs ∧
    readF (mainModel flags (some cliPath) fs parse temp).fs cliPath = readF fs cliPath := by
  unfold mainModel
  rw [hr]
  by_cases hd : flags.dryRun <;>
    simp [hd, restoreFromBackup, hb]

/-- Witness for C10: a concrete backup-less restore run. -/
theorem claim_C10_restore_without_backup_witness :
    (mainModel ⟨false, true, false, none, none, none⟩ (some "cli.js")
        [("cli.js", "abc".toList)] (fun _ => none) "cli.js.tmp0").exit = EXIT_SUCCESS ∧
    (mainModel ⟨false, true, false, none, none, none⟩ (some "cli.js")
        [("cli.js", "abc".toList)] (fun _ => none) "cli.js.tmp0").fs =
      [("cli.js", "abc".toList)] ∧
    readF (mainModel ⟨false, true, false, none, none, none⟩ (some "cli.js")
        [("cli.js", "abc".toList)] (fun _ => none) "cli.js.tmp0").fs "cli.js" =
      readF [("cli.js", "abc".toList)] "cli.js" :=
  claim_C10_restore_without_backup ⟨false, true, false, none, none, none⟩ "cli.js"
    [("cli.js", "abc".toList)] (fun _ => none) "cli.js.tmp0" rfl (by decide)

/-- Claim C4: on already fully patched text, detection plus
`applyPatches` yields zero edits and the output equals the input, so the
pipeline applied twice equals the pipeline applied once; and whenever a
first pass already produced text whose re-parse leaves nothing to edit,
a second pass returns that text unchanged — no change is ever applied
twice. -/
theorem claim_C4_zero_edits_idempotent (parse : Chars → Option Js) (colors : Colors) :
    (∀ code ast, parse code = some ast →
        allSitesPatched (detections code ast) = true →
        (applyPatchesEdits ast (detections code ast) colors).map Prod.fst = .ok [] ∧
        pipeline parse colors code = some code ∧
        (pipeline parse colors code).bind (pipeline parse colors) =
          pipeline parse colors code) ∧
    (∀ code out ast2, pipeline parse colors code = some out →
        parse out = some ast2 →
        noEditNeeded (detections out ast2) colors = true →
        pipeline parse colors out = some out) := by
  constructor
  · intro code ast hparse hall
    have hne : noEditNeeded (detections code ast) colors = true :=
      allSitesPatched_noEdit hall
    obtain ⟨ps, hp⟩ := applyPatchesEdits_nil ast hne
    obtain ⟨ps2, hap⟩ := applyPatches_nil code ast hne
    have hpipe : pipeline parse colors code = some code := by
      unfold pipeline
      rw [hparse]
      dsimp only
      rw [hap]
    refine ⟨?_, hpipe, ?_⟩
    · rw [hp]
      rfl
    · rw [hpipe]
      exact hpipe
  · intro code out ast2 _hpipe hparse2 hne
    obtain ⟨ps2, hap⟩ := applyPatches_nil out ast2 hne
    unfold pipeline
    rw [hparse2]
    dsimp only
    rw [hap]

set_option maxRecDepth 40000 in
/-- Witness for C4: fixture D is fully patched; the pipeline leaves it
unchanged, twice as well as once. -/
theorem claim_C4_zero_edits_idempotent_witness :
    ((applyPatchesEdits astD (detections codeD astD) ⟨none, none⟩).map Prod.fst =
        .ok [] ∧
     pipeline parseD ⟨none, none⟩ codeD = some codeD ∧
     (pipeline parseD ⟨none, none⟩ codeD).bind (pipeline parseD ⟨none, none⟩) =
        pipeline parseD ⟨none, none⟩ codeD) ∧
    pipeline parseD ⟨none, none⟩ codeD = some codeD := by
  refine ⟨(claim_C4_zero_edits_idempotent parseD ⟨none, none⟩).1 codeD astD rfl (by decide), ?_⟩
  exact (claim_C4_zero_edits_idempotent parseD ⟨none, none⟩).2 codeD codeD astD
    (by decide) rfl (by decide)

/-- Claim C7 (amended): an invalid styling value aborts the run with an
uncaught validation error before any edit or write — the filesystem is
untouched — but only after the target has already been read and parsed;
and any value that is neither a preset key nor a strict hex literal is
rejected by `resolveColors`. -/
theorem claim_C7_invalid_color_aborts (flags : Flags) (cliPath : String) (fs : FS)
    (parse : Chars → Option Js) (temp : String) (content : Chars) (ast : Js) (msg : String)
    (hr : flags.restoreFlag = false)
    (hread : readF fs cliPath = some content)
    (hparse : parse content = some ast)
    (hrc : resolveColors flags.customColor flags.contentColor flags.theme = .error msg) :
    mainModel flags (some cliPath) fs parse temp =
      ⟨EXIT_GENERAL_ERROR, fs, [.readTarget, .parsedOk, .thrown]⟩ ∧
    (∀ (c : String) (cc : Option String),
       (COLOR_PRESETS.find? fun kv => kv.1 == c) = none → isHexColor c = false →
       (c == "") = false →
       resolveColors (some c) cc none = .error ("Invalid color " ++ c)) := by
  constructor
  · unfold mainModel
    rw [hr]
    simp only [Bool.false_eq_true, if_false]
    rw [hread]
    dsimp only
    rw [hparse]
    dsimp only
    rw [hrc]
  · intro c cc hfind hhex hne
    have hval : validateColor (some c) = .error ("Invalid color " ++ c) := by
      unfold validateColor
      dsimp only
      rw [hfind]
      simp [hhex]
    unfold resolveColors
    dsimp only
    rw [hne]
    simp only [Bool.false_eq_true, if_false, hval]
    rfl

theorem applyPatches_ne_push (code : Chars) (ast : Js) (d : Detections) (colors : Colors)
    (hcc : colors.contentColor = none) (n : Nat) :
    applyPatches code ast d colors ≠ .error (.ambiguousPush n) := by
  unfold applyPatches applyPatchesEdits patch4
  rw [hcc]
  dsimp only
  cases hs : splice code ((patch1 d).1 ++ (patch2 d).1 ++ (patch3 colors d).1 ++ []) <;>
    simp [hs]

theorem mainModel_exit_ne_ambiguous (flags : Flags) (cliPathOpt : Option String) (fs : FS)
    (parse : Chars → Option Js) (temp : String)
    (h : ∀ colors, resolveColors flags.customColor flags.contentColor flags.theme =
          .ok colors → colors.contentColor = none) :
    (mainModel flags cliPathOpt fs parse temp).exit ≠ EXIT_AMBIGUOUS := by
  intro hx
  unfold mainModel at hx
  split at hx
  · simp [EXIT_GENERAL_ERROR, EXIT_AMBIGUOUS] at hx
  · split at hx
    · split at hx
      · simp [EXIT_SUCCESS, EXIT_AMBIGUOUS] at hx
      · simp [EXIT_SUCCESS, EXIT_AMBIGUOUS] at hx
    · split at hx
      · simp [EXIT_GENERAL_ERROR, EXIT_AMBIGUOUS] at hx
      · split at hx
        · simp [EXIT_GENERAL_ERROR, EXIT_AMBIGUOUS] at hx
        · split at hx
          · simp [EXIT_GENERAL_ERROR, EXIT_AMBIGUOUS] at hx
          · rename_i content ast colors hrc
            dsimp only at hx
            split at hx
            · split at hx
              · simp [EXIT_SUCCESS, EXIT_AMBIGUOUS] at hx
              · split at hx
                · simp [EXIT_ALREADY_PATCHED, EXIT_AMBIGUOUS] at hx
                · simp [EXIT_GENERAL_ERROR, EXIT_AMBIGUOUS] at hx
            · split at hx
              · split at hx
                · simp [EXIT_ALREADY_PATCHED, EXIT_AMBIGUOUS] at hx
                · simp [EXIT_GENERAL_ERROR, EXIT_AMBIGUOUS] at hx
              · split at hx
                · rename_i n happ
                  exact applyPatches_ne_push _ _ _ _ (h colors hrc) n happ
                · simp [EXIT_GENERAL_ERROR, EXIT_AMBIGUOUS] at hx
                · rename_i patched heq
                  split at hx
                  · simp [EXIT_VERIFICATION_FAILED, EXIT_AMBIGUOUS] at hx
                  · split at hx
                    · simp [EXIT_SUCCESS, EXIT_AMBIGUOUS] at hx
                    · simp [EXIT_SUCCESS, EXIT_AMBIGUOUS] at hx

/-- Claim C2 (amended): a matcher-level AMBIGUOUS result does not abort
the run with the AMBIGUOUS status and contributes no edit and no report
label — the site is simply skipped.  When no content color is resolved
the run can never exit AMBIGUOUS at all: that status is reserved for the
push-pattern ambiguity inside `applyPatches` during content-color
patching. -/
theorem claim_C2_site_ambiguous_skipped (flags : Flags) (cliPath : String) (fs : FS)
    (parse : Chars → Option Js) (temp : String) (content : Chars) (ast : Js) (k : Nat)
    (hread : readF fs cliPath = some content)
    (hparse : parse content = some ast)
    (hamb : findCollapsedView ast = .error (.ambiguous k))
    (hnc : ∀ colors, resolveColors flags.customColor flags.contentColor flags.theme =
            .ok colors → colors.contentColor = none) :
    (mainModel flags (some cliPath) fs parse temp).exit ≠ EXIT_AMBIGUOUS ∧
    patch1 (detections content ast) = ([], []) := by
  refine ⟨mainModel_exit_ne_ambiguous flags (some cliPath) fs parse temp hnc, ?_⟩
  unfold patch1 detections
  rw [hamb]

set_option maxRecDepth 40000 in
/-- Witness for the amended C2: fixture B (collapsed view AMBIGUOUS,
switch case patchable, no colors). -/
theorem claim_C2_site_ambiguous_skipped_witness :
    (mainModel flagsB (some "cli.js") fsB parseB "cli.js.tmp0").exit ≠ EXIT_AMBIGUOUS ∧
    patch1 (detections codeB astB) = ([], []) := by
  refine claim_C2_site_ambiguous_skipped flagsB "cli.js" fsB parseB "cli.js.tmp0"
    codeB astB 2 (by decide) rfl rfl ?_
  intro colors h
  have h2 : (Except.ok colors : Except String Colors) = .ok ⟨none, none⟩ := h.symm.trans rfl
  cases h2
  rfl

set_option maxRecDepth 40000 in
/-- Counterexample for C2 as stated: on fixture B the collapsed-view
matcher reports AMBIGUOUS (two simultaneously unpatched candidates), yet
the run does not abort with the AMBIGUOUS status — it patches the switch
case, writes the target file and exits with SUCCESS. -/
theorem claim_C2_counterexample :
    errOf (findCollapsedView astB) = some (.ambiguous 2) ∧
    ocB.exit = EXIT_SUCCESS ∧
    ocB.exit ≠ EXIT_AMBIGUOUS ∧
    Ev.wrote ∈ ocB.events ∧
    readF ocB.fs "cli.js" = some outB ∧
    outB ≠ codeB := by
  refine ⟨by decide, by decide, by decide, by decide, by decide, by decide⟩

set_option maxRecDepth 40000 in
/-- Claim C1: the code bug evaluated.  With `--color=green` on a build
whose expanded header is absent, `main` re-runs the matchers on the
edited text, the header matcher does not report `isPatched` for the
requested coloring — and the run still writes the target and exits with
SUCCESS, because `main` passes no `expectedPatches` to
`verifyPatchedCode`, leaving its failure collection unreachable.  A
harness-style call that does pass `expectedPatches` detects the failure,
as the claim describes. -/
theorem claim_C1_verification_never_fails :
    resolveColors flagsA.customColor flagsA.contentColor flagsA.theme =
      .ok ⟨some "#32cd32", some "#32cd32"⟩ ∧
    ocA.exit = EXIT_SUCCESS ∧
    ocA.events = [.readTarget, .parsedOk, .applied, .verified, .wrote] ∧
    readF ocA.fs "cli.js" = some outA ∧
    parseA outA = some astA2 ∧
    patchedB (fun m => m.isPatched) (findExpandedHeader astA2) = false ∧
    (verifyPatchedCode (some astA2) outA ⟨some "#32cd32", some "#32cd32"⟩ none).valid
      = true ∧
    (verifyPatchedCode (some astA2) outA ⟨some "#32cd32", some "#32cd32"⟩
        (some ⟨true, false, true, false⟩)).valid = false := by
  refine ⟨rfl, by decide, by decide, by decide, rfl, by decide, by decide, by decide⟩

set_option maxRecDepth 40000 in
/-- Counterexample for C7 as stated: the invalid styling value `red;x`
does abort the run without any edit or write, but only after the target
file has been read and parsed — not before any file access. -/
theorem claim_C7_counterexample :
    validateColor (some "red;x") = .error ("Invalid color " ++ "red;x") ∧
    ocF = ⟨EXIT_GENERAL_ERROR, fsA, [.readTarget, .parsedOk, .thrown]⟩ ∧
    Ev.readTarget ∈ ocF.events ∧
    Ev.parsedOk ∈ ocF.events ∧
    Ev.wrote ∉ ocF.events ∧
    Ev.applied ∉ ocF.events := by
  refine ⟨rfl, by decide, by decide, by decide, by decide, by decide⟩

set_option maxRecDepth 40000 in
/-- Witness for the amended C7: the `red;x` run aborts with the target
read and parsed but the filesystem untouched. -/
theorem claim_C7_invalid_color_aborts_witness :
    mainModel flagsF (some "cli.js") fsA parseA "cli.js.tmp0" =
      ⟨EXIT_GENERAL_ERROR, fsA, [.readTarget, .parsedOk, .thrown]⟩ ∧
    resolveColors (some "red;x") none none = .error ("Invalid color " ++ "red;x") := by
  have h := claim_C7_invalid_color_aborts flagsF "cli.js" fsA parseA "cli.js.tmp0"
    codeA astA ("Invalid color " ++ "red;x") rfl (by decide) rfl rfl
  exact ⟨h.1, h.2 "red;x" none (by decide) (by decide) (by decide)⟩

set_option maxRecDepth 40000 in
/-- Counterexample for C3 as stated: fixture C has two structurally
valid expanded-header candidates that both already satisfy `isPatched`,
yet `findExpandedHeader` fails with AMBIGUOUS instead of succeeding with
one of them. -/
theorem claim_C3_counterexample :
    (headerCands astC).length = 2 ∧
    (headerCands astC).all (fun c => c.isPatched) = true ∧
    errOf (findExpandedHeader astC) = some (.ambiguous 2) := by
  refine ⟨by decide, by decide, by decide⟩

/-- Claim C3 (amended): the stated disambiguation policy (all patched →
succeed with one of them; exactly one unpatched → select it; several
unpatched → AMBIGUOUS with the unpatched count) holds for the
collapsed-view and switch-case matchers; the expanded-header matcher
instead fails with AMBIGUOUS whenever more than one structurally valid
candidate exists, patched or not, reporting the total candidate count. -/
theorem claim_C3_disambiguation :
    (∀ cs : List CollapsedCand, cs ≠ [] → (∀ c ∈ cs, c.isPatched = true) →
       ∃ c ∈ cs, processCollapsed cs = .ok c.toMatch) ∧
    (∀ cs : List CollapsedCand, (cs.filter fun c => !c.isPatched).length = 1 →
       ∃ c ∈ cs, c.isPatched = false ∧ processCollapsed cs = .ok c.toMatch) ∧
    (∀ cs : List CollapsedCand, 2 ≤ (cs.filter fun c => !c.isPatched).length →
       processCollapsed cs = .error (.ambiguous (cs.filter fun c => !c.isPatched).length)) ∧
    (∀ cs : List SwitchCand, cs ≠ [] → (∀ c ∈ cs, c.isPatched = true) →
       ∃ c ∈ cs, processSwitchCands cs = .ok (buildSwitchCaseResult c)) ∧
    (∀ cs : List SwitchCand, (cs.filter fun c => !c.isPatched).length = 1 →
       ∃ c ∈ cs, c.isPatched = false ∧
         processSwitchCands cs = .ok (buildSwitchCaseResult c)) ∧
    (∀ cs : List SwitchCand, 2 ≤ (cs.filter fun c => !c.isPatched).length →
       processSwitchCands cs = .error (.ambiguous (cs.filter fun c => !c.isPatched).length)) ∧
    (∀ ast : Js, 2 ≤ (headerCands ast).length →
       findExpandedHeader ast = .error (.ambiguous (headerCands ast).length)) := by
  refine ⟨?_, ?_, ?_, ?_, ?_, ?_, ?_⟩
  · intro cs hne hall
    cases cs with
    | nil => exact absurd rfl hne
    | cons m ms =>
      cases ms with
      | nil => exact ⟨m, by simp, rfl⟩
      | cons m2 ms2 =>
        have hfil : ((m :: m2 :: ms2).filter fun c => !c.isPatched) = [] := by
          rw [List.filter_eq_nil_iff]
          intro a ha
          simp [hall a ha]
        refine ⟨m, by simp, ?_⟩
        simp [processCollapsed, hfil]
  · intro cs hlen
    cases cs with
    | nil => simp at hlen
    | cons m ms =>
      cases ms with
      | nil =>
        cases hm : m.isPatched with
        | true => simp [List.filter, hm] at hlen
        | false => exact ⟨m, by simp, hm, rfl⟩
      | cons m2 ms2 =>
        obtain ⟨u, hu⟩ := List.length_eq_one.mp hlen
        have humem : u ∈ (m :: m2 :: ms2).filter fun c => !c.isPatched := by
          rw [hu]
          exact List.mem_singleton_self u
        have hmem := List.mem_filter.mp humem
        refine ⟨u, hmem.1, by simpa using hmem.2, ?_⟩
        simp [processCollapsed, hu]
  · intro cs hlen
    cases cs with
    | nil => simp at hlen
    | cons m ms =>
      cases ms with
      | nil =>
        have hle := List.length_filter_le (fun c => !c.isPatched) [m]
        simp at hle
        omega
      | cons m2 ms2 =>
        have hgt : 1 < ((m :: m2 :: ms2).filter fun c => !c.isPatched).length := by omega
        simp [processCollapsed, hgt]
  · intro cs hne hall
    cases cs with
    | nil => exact absurd rfl hne
    | cons m ms =>
      cases ms with
      | nil => exact ⟨m, by simp, rfl⟩
      | cons m2 ms2 =>
        have hfil : ((m :: m2 :: ms2).filter fun c => !c.isPatched) = [] := by
          rw [List.filter_eq_nil_iff]
          intro a ha
          simp [hall a ha]
        refine ⟨m, by simp, ?_⟩
        simp [processSwitchCands, hfil]
  · intro cs hlen
    cases cs with
    | nil => simp at hlen
    | cons m ms =>
      cases ms with
      | nil =>
        cases hm : m.isPatched with
        | true => simp [List.filter, hm] at hlen
        | false => exact ⟨m, by simp, hm, rfl⟩
      | cons m2 ms2 =>
        obtain ⟨u, hu⟩ := List.length_eq_one.mp hlen
        have humem : u ∈ (m :: m2 :: ms2).filter fun c => !c.isPatched := by
          rw [hu]
          exact List.mem_singleton_self u
        have hmem := List.mem_filter.mp humem
        refine ⟨u, hmem.1, by simpa using hmem.2, ?_⟩
        simp [processSwitchCands, hu]
  · intro cs hlen
    cases cs with
    | nil => simp at hlen
    | cons m ms =>
      cases ms with
      | nil =>
        have hle := List.length_filter_le (fun c => !c.isPatched) [m]
        simp at hle
        omega
      | cons m2 ms2 =>
        have hgt : 1 < ((m :: m2 :: ms2).filter fun c => !c.isPatched).length := by omega
        simp [processSwitchCands, hgt]
  · intro ast hlen
    have hne : ¬((findStringLiteralsWithAncestors ast "∴ Thinking…").length = 0) := by
      intro h0
      have hnil : findStringLiteralsWithAncestors ast "∴ Thinking…" = [] :=
        List.length_eq_zero.mp h0
      have hcnil : headerCands ast = [] := by
        unfold headerCands
        rw [hnil]
        rfl
      rw [hcnil] at hlen
      simp at hlen
    unfold findExpandedHeader
    rw [if_neg hne]
    cases hc : headerCands ast with
    | nil =>
        rw [hc] at hlen
        simp at hlen
    | cons m1 t =>
      cases t with
      | nil =>
          rw [hc] at hlen
          simp at hlen
      | cons m2 r =>
          rfl

set_option maxRecDepth 40000 in
/-- Witness for the amended C3: concrete candidate lists for every case
of the disambiguation policy, and fixture C for the header matcher. -/
theorem claim_C3_disambiguation_witness :
    (∃ c ∈ [(⟨.lit (.str "∴ Thinking (") 11 25, ifA, none, none, none, none, true⟩ :
              CollapsedCand),
            ⟨.lit (.str "∴ Thinking (") 11 25, ifA, none, none, none, none, true⟩],
       processCollapsed
         [⟨.lit (.str "∴ Thinking (") 11 25, ifA, none, none, none, none, true⟩,
          ⟨.lit (.str "∴ Thinking (") 11 25, ifA, none, none, none, none, true⟩] =
         .ok c.toMatch) ∧
    (∃ c ∈ [(⟨.lit (.str "∴ Thinking (") 11 25, ifA, none, none, none, none, true⟩ :
              CollapsedCand), candA],
       c.isPatched = false ∧
       processCollapsed
         [⟨.lit (.str "∴ Thinking (") 11 25, ifA, none, none, none, none, true⟩, candA] =
         .ok c.toMatch) ∧
    processCollapsed [candA, candA] = .error (.ambiguous 2) ∧
    (∃ c ∈ [(⟨swCaseB, none, none, none, false⟩ : SwitchCand)],
       c.isPatched = false ∧
       processSwitchCands [(⟨swCaseB, none, none, none, false⟩ : SwitchCand)] =
         .ok (buildSwitchCaseResult c)) ∧
    processSwitchCands
      [(⟨swCaseB, none, none, none, false⟩ : SwitchCand),
       ⟨swCaseB, none, none, none, false⟩] = .error (.ambiguous 2) ∧
    findExpandedHeader astC = .error (.ambiguous (headerCands astC).length) := by
  refine ⟨?_, ?_, ?_, ?_, ?_, ?_⟩
  · exact claim_C3_disambiguation.1 _ (List.cons_ne_nil _ _) (by decide)
  · exact claim_C3_disambiguation.2.1 _ (by decide)
  · have h := claim_C3_disambiguation.2.2.1 [candA, candA] (by decide)
    have h2 : (([candA, candA].filter fun c => !c.isPatched)).length = 2 := rfl
    rw [h2] at h
    exact h
  · exact claim_C3_disambiguation.2.2.2.2.1 _ (by decide)
  · have h := claim_C3_disambiguation.2.2.2.2.2.1
      [(⟨swCaseB, none, none, none, false⟩ : SwitchCand),
       ⟨swCaseB, none, none, none, false⟩] (by decide)
    have h2 : ((([(⟨swCaseB, none, none, none, false⟩ : SwitchCand),
       ⟨swCaseB, none, none, none, false⟩]).filter fun c => !c.isPatched)).length = 2 := rfl
    rw [h2] at h
    exact h
  · exact claim_C3_disambiguation.2.2.2.2.2.2 astC (by decide)

set_option maxRecDepth 40000 in
/-- Counterexample for C5 as stated: fixture E has exactly one
collapsed-view candidate, unpatched and of the two-identifier
`!(c||d)` form enclosing the anchor — yet `applyPatches` also rewrites
the unpatched switch case, so the output differs from the input outside
the guard test's byte range `[75, 82)` (byte 68 changes from `q` to
`!`). -/
theorem claim_C5_counterexample :
    collapsedCands astE =
      [⟨.lit (.str "∴ Thinking (") 83 97, if1B, some 75, some 82,
        some "c", some "d", false⟩] ∧
    applyPatches codeE astE (detections codeE astE) ⟨none, none⟩ =
      .ok (outE, ["Collapsed view guard disabled", "Switch case: transcript mode forced"]) ∧
    outE ≠ codeE.take 75 ++ "!1".toList ++ codeE.drop 82 ∧
    outE[68]? = some '!' ∧
    codeE[68]? = some 'q' := by
  refine ⟨rfl, rfl, by decide, by decide, by decide⟩

/-- Claim C5 (amended): when the tree's collapsed-view candidate list is
exactly one unpatched `!(A||B)` guard over two identifiers, no other
site needs an edit (the switch-case matcher finds nothing unpatched) and
no coloring is requested, `applyPatches` replaces exactly the guard
test's byte range with `!1`; every byte outside that range survives at
its shifted offset; and the collapsed-view matcher reports
`isPatched = true` on any tree whose candidate guard carries the `!1`
test — the shape the edited text parses to. -/
theorem claim_C5_single_guard_patch (code : Chars) (ast : Js) (c : CollapsedCand)
    (s e : Nat) (A B : String)
    (h1 : collapsedCands ast = [c])
    (h2 : c.conditionStart = some s) (h3 : c.conditionEnd = some e)
    (h4 : c.isPatched = false)
    (h5 : c.transcriptVar = some A) (h6 : c.verboseVar = some B)
    (hsw : (okB (findSwitchCase ast) &&
            !patchedB (fun m => m.isPatched) (findSwitchCase ast)) = false)
    (hse : s ≤ e) (hel : e ≤ code.length) :
    applyPatches code ast (detections code ast) ⟨none, none⟩ =
      .ok (code.take s ++ "!1".toList ++ code.drop e,
           ["Collapsed view guard disabled"] ++ (patch2 (detections code ast)).2) ∧
    (∀ p, p < code.length → (p < s ∨ e ≤ p) →
       (code.take s ++ "!1".toList ++ code.drop e)[shiftFrom 0
          [⟨s, e, "!1".toList⟩] p]? = code[p]?) ∧
    (∀ c2 : CollapsedCand, c2.isPatched = true →
       processCollapsed [c2] = .ok c2.toMatch ∧ c2.toMatch.isPatched = true) ∧
    (∀ (pr : Js × List Js) (conseq : Js) (alt : Option Js) (a b ts te ss ee : Nat),
       findAncestorOfType pr.2 isIfStmtB =
         some (.ifStmt (.unary "!" (.lit (.num 1) a b) ts te) conseq alt ss ee) →
       (collapsedCandOf pr).map (fun cc => cc.isPatched) = some true) := by
  have hlits : ¬((findStringLiteralsWithAncestors ast "∴ Thinking (").length = 0) := by
    intro h0
    have hnil : findStringLiteralsWithAncestors ast "∴ Thinking (" = [] :=
      List.length_eq_zero.mp h0
    have hcnil : collapsedCands ast = [] := by
      unfold collapsedCands
      rw [hnil]
      rfl
    rw [h1] at hcnil
    simp at hcnil
  have hcv : findCollapsedView ast = .ok c.toMatch := by
    unfold findCollapsedView
    rw [if_neg hlits]
    unfold collapsedCands at h1
    rw [h1]
    rfl
  have hp1 : patch1 (detections code ast) =
      ([⟨s, e, "!1".toList⟩], ["Collapsed view guard disabled"]) := by
    unfold patch1 detections
    dsimp only
    rw [hcv]
    simp [CollapsedCand.toMatch, h2, h3, h4]
  have hp2 : (patch2 (detections code ast)).1 = [] := by
    apply patch2_nil
    show (okB (detections code ast).switchCase &&
          !patchedB (fun m => m.isPatched) (detections code ast).switchCase) = false
    unfold detections
    exact hsw
  have hedits : applyPatchesEdits ast (detections code ast) ⟨none, none⟩ =
      .ok ([⟨s, e, "!1".toList⟩],
           ["Collapsed view guard disabled"] ++ (patch2 (detections code ast)).2) := by
    unfold applyPatchesEdits
    have hp4 : patch4 ast (detections code ast) ⟨none, none⟩ = .ok ([], []) := rfl
    rw [hp4]
    dsimp only
    rw [hp1, hp2]
    have hp3 : patch3 ⟨none, none⟩ (detections code ast) = ([], []) := rfl
    rw [hp3]
    simp
  have hchain : chainOk code.length 0 [⟨s, e, "!1".toList⟩] = true := by
    simp [chainOk, hse, hel]
  have hsplice : splice code [⟨s, e, "!1".toList⟩] =
      .ok (code.take s ++ "!1".toList ++ code.drop e) := by
    unfold splice sortEdits insEdit
    dsimp only
    rw [show sortEdits [] = [] from rfl]
    simp only [hchain, if_true]
    simp [spliceGo, sliceTxt]
  refine ⟨?_, ?_, ?_, ?_⟩
  · unfold applyPatches
    rw [hedits]
    dsimp only
    rw [hsplice]
  · intro p hp hpo
    have hgo : spliceGo code 0 [⟨s, e, "!1".toList⟩] =
        code.take s ++ "!1".toList ++ code.drop e := by
      simp [spliceGo, sliceTxt]
    rw [← hgo]
    refine spliceGo_frame code [⟨s, e, "!1".toList⟩] 0 p hchain (Nat.zero_le p) hp ?_
    intro ed hed
    rw [List.mem_singleton] at hed
    subst hed
    exact hpo
  · intro c2 hc2
    exact ⟨rfl, by simp [CollapsedCand.toMatch, hc2]⟩
  · intro pr conseq alt a b ts te ss ee hfa
    unfold collapsedCandOf
    rw [hfa]
    rfl

set_option maxRecDepth 40000 in
/-- Witness for the amended C5: fixture A, whose only site is the single
unpatched `!(a||b)` guard. -/
theorem claim_C5_single_guard_patch_witness :
    applyPatches codeA astA (detections codeA astA) ⟨none, none⟩ =
      .ok (codeA.take 3 ++ "!1".toList ++ codeA.drop 10,
           ["Collapsed view guard disabled"] ++ (patch2 (detections codeA astA)).2) ∧
    (codeA.take 3 ++ "!1".toList ++ codeA.drop 10)[shiftFrom 0
        [⟨3, 10, "!1".toList⟩] 0]? = codeA[0]? := by
  have h := claim_C5_single_guard_patch codeA astA candA 3 10 "a" "b"
    rfl rfl rfl rfl rfl rfl (by decide) (by decide) (by decide)
  exact ⟨h.1, h.2.1 0 (by decide) (Or.inl (by decide))⟩
